import Mathlib

/-!
# Web-log record (`modules/weblog/logline.go`): shallow embedding

Go strings are byte sequences; they are embedded as lists of byte values.
Errors are embedded as values of `Err`; a Go `error` result is an `Option Err`
(`none` is `nil`).  A method with a pointer receiver that mutates the record is
a function returning the new record together with the error.

`float64` arithmetic and `strconv.ParseFloat` are not part of the repository; the
record is parametrised by a `FloatModel` that supplies them.
-/

namespace Weblog

/-! ## Strings -/

/-- A Go `string`: a sequence of bytes. -/
abbrev GoString := List Nat

/-- UTF-8 encoding of one code point, as Go stores string literals. -/
def utf8Bytes (c : Char) : List Nat :=
  let n := c.toNat
  if n < 0x80 then [n]
  else if n < 0x800 then [0xC0 + n / 64, 0x80 + n % 64]
  else if n < 0x10000 then [0xE0 + n / 4096, 0x80 + n / 64 % 64, 0x80 + n % 64]
  else [0xF0 + n / 262144, 0x80 + n / 4096 % 64, 0x80 + n / 64 % 64, 0x80 + n % 64]

/-- The bytes of a string literal. -/
def str (s : String) : GoString := s.toList.flatMap utf8Bytes

/-- `strings.IndexByte(s, c)`: index of the first `c` in `s`; `none` stands for `-1`. -/
def indexByte : GoString → Nat → Option Nat
  | [], _ => none
  | b :: bs, c => if b = c then some 0 else (indexByte bs c).map (· + 1)

/-- `strings.HasPrefix(s, prefix)`. -/
def hasPrefix (s pre : GoString) : Bool := pre.isPrefixOf s

/-! ## Regular expressions

The five patterns of `logline.go` are anchored at both ends (`^…$`, no flags), so
`MatchString` holds exactly when the whole text is in the language of the
pattern.  Every class in them is a set of ASCII bytes or the complement of one, so
matching over the UTF-8 decoding of the text and matching over its bytes agree:
a byte above `0x7f` (or the replacement rune of an invalid sequence) is outside
every positive class and inside the negated one. -/

/-- Abstract syntax of the patterns used by `logline.go`. -/
inductive Regex where
  | /-- matches nothing -/ none : Regex
  | /-- matches the empty text -/ eps : Regex
  | /-- `[lo₁-hi₁ lo₂-hi₂ …]`, or `[^…]` when `neg` is set -/
    cls (neg : Bool) (ranges : List (Nat × Nat)) : Regex
  | seq (a b : Regex) : Regex
  | alt (a b : Regex) : Regex
  | star (a : Regex) : Regex

namespace Regex

/-- Membership of a byte in a list of inclusive ranges. -/
def inRanges (ranges : List (Nat × Nat)) (c : Nat) : Bool :=
  ranges.any fun r => decide (r.1 ≤ c) && decide (c ≤ r.2)

/-- Membership of a byte in a (possibly negated) class. -/
def inClass (neg : Bool) (ranges : List (Nat × Nat)) (c : Nat) : Bool :=
  inRanges ranges c != neg

/-- A single literal byte. -/
def byte (c : Nat) : Regex := cls false [(c, c)]

/-- `a+`. -/
def plus (a : Regex) : Regex := seq a (star a)

/-- `a?`. -/
def opt (a : Regex) : Regex := alt a eps

/-- A literal text. -/
def lit : GoString → Regex
  | [] => eps
  | c :: cs => seq (byte c) (lit cs)

/-- Does the pattern accept the empty text? -/
def nullable : Regex → Bool
  | none => false
  | eps => true
  | cls _ _ => false
  | seq a b => a.nullable && b.nullable
  | alt a b => a.nullable || b.nullable
  | star _ => true

/-- Brzozowski derivative with respect to one byte. -/
def deriv (c : Nat) : Regex → Regex
  | none => none
  | eps => none
  | cls neg ranges => if inClass neg ranges c then eps else none
  | seq a b => if a.nullable then alt (seq (deriv c a) b) (deriv c b) else seq (deriv c a) b
  | alt a b => alt (deriv c a) (deriv c b)
  | star a => seq (deriv c a) (star a)

/-- `MatchString` for a pattern anchored at both ends. -/
def MatchString : Regex → GoString → Bool
  | r, [] => r.nullable
  | r, c :: cs => MatchString (r.deriv c) cs

end Regex

/-! ## Numbers -/

/-- The `Err` field of a `strconv.NumError`. -/
inductive NumErr where
  | /-- `strconv.ErrSyntax` -/ ErrSyntax
  | /-- `strconv.ErrRange` -/ ErrRange
  deriving DecidableEq, Repr

deriving instance DecidableEq for Except

/-- Value of a run of ASCII digits, most significant first; `none` when some byte is
not a digit. -/
def digitsValue : Nat → GoString → Option Nat
  | acc, [] => some acc
  | acc, c :: cs => if 48 ≤ c ∧ c ≤ 57 then digitsValue (acc * 10 + (c - 48)) cs else none

/-- The loop of `strconv.ParseUint(s, 10, 64)` (Go standard library) with `n`
accumulated so far: a byte that is not a decimal digit ends it with `ErrSyntax` and
the value 0; a digit that would take the value past 64 bits ends it at once with
`ErrRange` and the value `1<<64 - 1`, whatever follows. -/
def parseUintLoop : Nat → GoString → Nat × Option NumErr
  | n, [] => (n, none)
  | n, c :: cs =>
    if ¬ (48 ≤ c ∧ c ≤ 57) then (0, some .ErrSyntax)
    else if (2 ^ 64 - 1) / 10 + 1 ≤ n then (2 ^ 64 - 1, some .ErrRange)
    else if 2 ^ 64 - 1 < n * 10 + (c - 48) then (2 ^ 64 - 1, some .ErrRange)
    else parseUintLoop (n * 10 + (c - 48)) cs

/-- `strconv.ParseUint(s, 10, 64)`. -/
def parseUint (s : GoString) : Nat × Option NumErr :=
  if s = [] then (0, some .ErrSyntax) else parseUintLoop 0 s

/-- `strconv.Atoi` (Go standard library, 64-bit `int`), that is
`strconv.ParseInt(s, 10, 0)`: an optional sign, then `ParseUint` on the rest; a
syntax error gives 0, a magnitude outside `int64` gives the nearest bound with
`ErrRange`.  Go assigns the returned value to the left-hand side even when the error
is non-nil. -/
def atoi (s : GoString) : Int × Option NumErr :=
  if s = [] then (0, some .ErrSyntax)
  else
    let neg := s.head? = some 45
    let body := if s.head? = some 43 ∨ s.head? = some 45 then s.drop 1 else s
    match parseUint body with
    | (_, some .ErrSyntax) => (0, some .ErrSyntax)
    | (un, _) =>
      if !neg && decide (2 ^ 63 ≤ un) then ((2 : Int) ^ 63 - 1, some .ErrRange)
      else if neg && decide (2 ^ 63 < un) then (-(2 : Int) ^ 63, some .ErrRange)
      else (if neg then -(un : Int) else (un : Int), none)

/-- The `float64` operations and the `strconv.ParseFloat` that `logline.go` uses.
They belong to the Go runtime and standard library, so they are parameters of the
embedding.  The one law required of them is that converting the integer constant
`-9999` to `float64` and back with `int(…)` returns `-9999`. -/
structure FloatModel where
  /-- the carrier of `float64` values -/
  F : Type
  /-- conversion of an untyped integer constant to `float64` -/
  ofInt : Int → F
  /-- `x * y` -/
  mul : F → F → F
  /-- `x < y` -/
  lt : F → F → Bool
  /-- the conversion `int(x)` -/
  toInt : F → Int
  /-- `strconv.ParseFloat(s, 64)`; the value returned alongside an error is never
  used by `logline.go`. -/
  parseFloat : GoString → Except NumErr F
  /-- `int(float64(-9999)) == -9999` -/
  toInt_ofInt_emptyNumber : toInt (ofInt (-9999)) = -9999

/-! ## Constants of `logline.go` -/

def fieldVhost : GoString := str "vhost"
def fieldClientAddr : GoString := str "client_addr"
def fieldRequest : GoString := str "request"
def fieldReqMethod : GoString := str "req_method"
def fieldReqURI : GoString := str "req_uri"
def fieldReqProtocol : GoString := str "req_protocol"
def fieldRespStatus : GoString := str "resp_status"
def fieldReqSize : GoString := str "req_size"
def fieldRespSize : GoString := str "resp_size"
def fieldRespTime : GoString := str "resp_time"
def fieldUpstreamRespTime : GoString := str "upstream_resp_time"
def fieldCustom : GoString := str "custom"

def emptyString : GoString := str "__empty_string__"
def emptyNumber : Int := -9999

/-- The byte `-`. -/
def hyphen : GoString := str "-"

open Regex in
/-- The pattern `^[a-zA-Z0-9.-:]+$`.  Inside the brackets `.-:` is a range, from
`.` (0x2e) to `:` (0x3a). -/
def reVhost : Regex := plus (cls false [(97, 122), (65, 90), (48, 57), (46, 58)])

open Regex in
/-- The pattern `^([\da-f.:]+|localhost)$`. -/
def reClientAddr : Regex :=
  alt (plus (cls false [(48, 57), (97, 102), (46, 46), (58, 58)])) (lit (str "localhost"))

open Regex in
/-- The pattern `^[A-Z]+$`. -/
def reReqHTTPMethod : Regex := plus (cls false [(65, 90)])

open Regex in
/-- The pattern `^/[^\s]*$`; `\s` is `[\t\n\f\r ]`. -/
def reURI : Regex :=
  seq (byte 47) (star (cls true [(9, 9), (10, 10), (12, 12), (13, 13), (32, 32)]))

open Regex in
/-- The pattern `^\d+(\.\d+)?$`. -/
def reReqHTTPVersion : Regex :=
  seq (plus (cls false [(48, 57)])) (opt (seq (byte 46) (plus (cls false [(48, 57)]))))

/-! ## Errors -/

/-- The errors built by `logline.go`, one constructor per format string; the
arguments are the operands of the format that are not already part of the record
being verified. -/
inductive Err where
  | /-- `missing mandatory field: %s` -/ missingMandatoryField (field : GoString)
  | /-- `invalid '%s' field: …` -/ invalidField (field : GoString)
  | /-- `invalid request: %q` -/ invalidRequest (request : GoString)
  | /-- `invalid protocol: %q` -/ invalidProtocol (proto : GoString)
  | /-- `invalid status: %q: %w` -/ invalidStatus (status : GoString) (cause : NumErr)
  | /-- `invalid request size: %q: %w` -/ invalidRequestSize (size : GoString) (cause : NumErr)
  | /-- `invalid response size: %q: %w` -/ invalidResponseSize (size : GoString) (cause : NumErr)
  | /-- `invalid response time: %q: %w` -/ invalidResponseTime (time : GoString) (cause : NumErr)
  | /-- `invalid upstream response time: %q: %w` -/
    invalidUpstreamResponseTime (time : GoString) (cause : NumErr)
  deriving DecidableEq, Repr

/-! ## The record -/

/-- The struct `LogLine`. -/
structure LogLine (M : FloatModel) where
  Vhost : GoString
  ClientAddr : GoString
  ReqHTTPMethod : GoString
  ReqURI : GoString
  ReqHTTPVersion : GoString
  RespCodeStatus : Int
  ReqSize : Int
  RespSize : Int
  RespTime : M.F
  UpstreamRespTime : M.F
  Custom : GoString
  timeScale : M.F

def isEmptyString (s : GoString) : Bool := s == emptyString

def isEmptyNumber (n : Int) : Bool := n == emptyNumber

namespace LogLine

variable {M : FloatModel}

def reset (l : LogLine M) : LogLine M :=
  { l with
    Vhost := emptyString
    ClientAddr := emptyString
    ReqHTTPMethod := emptyString
    ReqURI := emptyString
    ReqHTTPVersion := emptyString
    Custom := emptyString
    RespCodeStatus := emptyNumber
    ReqSize := emptyNumber
    RespSize := emptyNumber
    RespTime := M.ofInt emptyNumber
    UpstreamRespTime := M.ofInt emptyNumber }

def hasVhost (l : LogLine M) : Bool := !isEmptyString l.Vhost

def hasClientAddr (l : LogLine M) : Bool := !isEmptyString l.ClientAddr

def hasReqHTTPMethod (l : LogLine M) : Bool := !isEmptyString l.ReqHTTPMethod

def hasReqURI (l : LogLine M) : Bool := !isEmptyString l.ReqURI

def hasReqHTTPVersion (l : LogLine M) : Bool := !isEmptyString l.ReqHTTPVersion

def hasRespCodeStatus (l : LogLine M) : Bool := !isEmptyNumber l.RespCodeStatus

def hasReqSize (l : LogLine M) : Bool := !isEmptyNumber l.ReqSize

def hasRespSize (l : LogLine M) : Bool := !isEmptyNumber l.RespSize

def hasRespTime (l : LogLine M) : Bool := !isEmptyNumber (M.toInt l.RespTime)

def hasUpstreamRespTime (l : LogLine M) : Bool := !isEmptyNumber (M.toInt l.UpstreamRespTime)

def hasCustom (l : LogLine M) : Bool := !isEmptyString l.Custom

def verifyMandatoryFields (l : LogLine M) : Option Err :=
  if !l.hasRespCodeStatus then some (.missingMandatoryField fieldRespStatus)
  else if l.RespCodeStatus < 100 ∨ l.RespCodeStatus ≥ 600 then some (.invalidField fieldRespStatus)
  else none

def verifyOptionalFields (l : LogLine M) : Option Err :=
  if l.hasVhost && !reVhost.MatchString l.Vhost then some (.invalidField fieldVhost)
  else if l.hasClientAddr && !reClientAddr.MatchString l.ClientAddr then
    some (.invalidField fieldClientAddr)
  else if l.hasReqHTTPMethod && !reReqHTTPMethod.MatchString l.ReqHTTPMethod then
    some (.invalidField fieldReqMethod)
  else if l.hasReqURI && !reURI.MatchString l.ReqURI then some (.invalidField fieldReqURI)
  else if l.hasReqHTTPVersion && !reReqHTTPVersion.MatchString l.ReqHTTPVersion then
    some (.invalidField fieldReqProtocol)
  else if l.hasReqSize && decide (l.ReqSize < 0) then some (.invalidField fieldReqSize)
  else if l.hasRespSize && decide (l.RespSize < 0) then some (.invalidField fieldRespSize)
  else if l.hasRespTime && M.lt l.RespTime (M.ofInt 0) then some (.invalidField fieldRespTime)
  else if l.hasUpstreamRespTime && M.lt l.UpstreamRespTime (M.ofInt 0) then
    some (.invalidField fieldUpstreamRespTime)
  else none

def Verify (l : LogLine M) : Option Err :=
  match l.verifyMandatoryFields with
  | some err => some err
  | none => l.verifyOptionalFields

def assignReqHTTPVersion (l : LogLine M) (proto : GoString) : LogLine M × Option Err :=
  if proto.length ≤ 5 ∨ !hasPrefix proto (str "HTTP/") then (l, some (.invalidProtocol proto))
  else ({ l with ReqHTTPVersion := proto.drop 5 }, none)

def assignRequest (l : LogLine M) (request : GoString) : LogLine M × Option Err :=
  if request = hyphen then (l, none)
  else
    match indexByte request 32 with
    | none => (l, some (.invalidRequest request))
    | some idx =>
      let l := { l with ReqHTTPMethod := request.take idx }
      let req := request.drop (idx + 1)
      match indexByte req 32 with
      | none => (l, some (.invalidRequest request))
      | some idx =>
        let l := { l with ReqURI := req.take idx }
        let req := req.drop (idx + 1)
        l.assignReqHTTPVersion req

def assignReqCodeStatus (l : LogLine M) (status : GoString) : LogLine M × Option Err :=
  if status = hyphen then (l, none)
  else
    match atoi status with
    | (n, some err) => ({ l with RespCodeStatus := n }, some (.invalidStatus status err))
    | (n, none) => ({ l with RespCodeStatus := n }, none)

def assignReqSize (l : LogLine M) (size : GoString) : LogLine M × Option Err :=
  if size = hyphen then ({ l with ReqSize := 0 }, none)
  else
    match atoi size with
    | (n, some err) => ({ l with ReqSize := n }, some (.invalidRequestSize size err))
    | (n, none) => ({ l with ReqSize := n }, none)

def assignRespSize (l : LogLine M) (size : GoString) : LogLine M × Option Err :=
  if size = hyphen then ({ l with RespSize := 0 }, none)
  else
    match atoi size with
    | (n, some err) => ({ l with RespSize := n }, some (.invalidResponseSize size err))
    | (n, none) => ({ l with RespSize := n }, none)

def assignRespTime (l : LogLine M) (time : GoString) : LogLine M × Option Err :=
  if time = hyphen then (l, none)
  else
    match M.parseFloat time with
    | .error err => (l, some (.invalidResponseTime time err))
    | .ok val => ({ l with RespTime := M.mul val l.timeScale }, none)

def assignUpstreamRespTime (l : LogLine M) (time : GoString) : LogLine M × Option Err :=
  if time = hyphen then (l, none)
  else
    let time := match indexByte time 44 with
      | some idx => time.take idx
      | none => time
    match M.parseFloat time with
    | .error err => (l, some (.invalidUpstreamResponseTime time err))
    | .ok val => ({ l with UpstreamRespTime := M.mul val l.timeScale }, none)

def Assign (l : LogLine M) (field value : GoString) : LogLine M × Option Err :=
  if field = fieldVhost then ({ l with Vhost := value }, none)
  else if field = fieldClientAddr then ({ l with ClientAddr := value }, none)
  else if field = fieldRequest then l.assignRequest value
  else if field = fieldReqMethod then ({ l with ReqHTTPMethod := value }, none)
  else if field = fieldReqURI then ({ l with ReqURI := value }, none)
  else if field = fieldReqProtocol then l.assignReqHTTPVersion value
  else if field = fieldRespStatus then l.assignReqCodeStatus value
  else if field = fieldRespSize then l.assignRespSize value
  else if field = fieldReqSize then l.assignReqSize value
  else if field = fieldRespTime then l.assignRespTime value
  else if field = fieldUpstreamRespTime then l.assignUpstreamRespTime value
  else if field = fieldCustom then ({ l with Custom := value }, none)
  else (l, none)

end LogLine

/-! ## A concrete float model

Exact decimal arithmetic: a value is `mant / 10 ^ exp`.  It interprets the decimal
texts `[+-]digits[.digits]`, which `strconv.ParseFloat` accepts as well, and rejects
everything else.  It is used to evaluate the record operations on concrete
inputs. -/

/-- A decimal number `mant / 10 ^ exp`. -/
structure Dec where
  mant : Int
  exp : Nat
  deriving DecidableEq, Repr

/-- Split a text at its first `.`: the integer digits and the fraction digits. -/
def splitPoint (s : GoString) : GoString × GoString :=
  match indexByte s 46 with
  | none => (s, [])
  | some i => (s.take i, s.drop (i + 1))

/-- Decimal reading of `[+-]digits[.digits]` with at least one digit. -/
def parseDec (s : GoString) : Except NumErr Dec :=
  let neg := s.head? = some 45
  let body := if s.head? = some 43 ∨ s.head? = some 45 then s.drop 1 else s
  let (ip, fp) := splitPoint body
  if ip = [] ∧ fp = [] then .error .ErrSyntax
  else match digitsValue 0 (ip ++ fp) with
    | none => .error .ErrSyntax
    | some n => .ok ⟨if neg then -(n : Int) else (n : Int), fp.length⟩

/-- The decimal float model. -/
def decModel : FloatModel where
  F := Dec
  ofInt n := ⟨n, 0⟩
  mul a b := ⟨a.mant * b.mant, a.exp + b.exp⟩
  lt a b := decide (a.mant * 10 ^ b.exp < b.mant * 10 ^ a.exp)
  toInt a := Int.tdiv a.mant (10 ^ a.exp)
  parseFloat := parseDec
  toInt_ofInt_emptyNumber := by decide

/-- A freshly reset record with time scale 1, as `newEmptyLogLine` builds it. -/
def emptyLine : LogLine decModel :=
  LogLine.reset
    { Vhost := [], ClientAddr := [], ReqHTTPMethod := [], ReqURI := [], ReqHTTPVersion := [],
      RespCodeStatus := 0, ReqSize := 0, RespSize := 0, RespTime := ⟨0, 0⟩,
      UpstreamRespTime := ⟨0, 0⟩, Custom := [], timeScale := ⟨1, 0⟩ }

/-- A record with status 200, client `1.2.3.4`, method `GET`, URI `/api` and version
`1.1`. -/
def sampleLine : LogLine decModel :=
  { emptyLine with
    RespCodeStatus := 200, ClientAddr := str "1.2.3.4", ReqHTTPMethod := str "GET",
    ReqURI := str "/api", ReqHTTPVersion := str "1.1" }

/-- The reset record with status 200: `Verify()` accepts it. -/
def okLine : LogLine decModel := { emptyLine with RespCodeStatus := 200 }

/-! ## Validation rules as the specification words them -/

/-- ClientAddr rule: the text `localhost`, or a non-empty text over `0-9`, `a-f`,
`.` and `:`. -/
def SpecClientAddr (v : GoString) : Prop :=
  v = str "localhost" ∨
    (v ≠ [] ∧ ∀ c ∈ v, (48 ≤ c ∧ c ≤ 57) ∨ (97 ≤ c ∧ c ≤ 102) ∨ c = 46 ∨ c = 58)

/-- ReqMethod rule: a non-empty text of `A-Z`. -/
def SpecReqMethod (v : GoString) : Prop := v ≠ [] ∧ ∀ c ∈ v, 65 ≤ c ∧ c ≤ 90

/-- The whitespace of the URI rule, the class `\s` of the pattern table: tab, line
feed, form feed, carriage return and space. -/
def IsWhitespace (c : Nat) : Prop := c = 9 ∨ c = 10 ∨ c = 12 ∨ c = 13 ∨ c = 32

/-- ReqURI rule: starts with `/` and contains no whitespace. -/
def SpecReqURI (v : GoString) : Prop := v.head? = some 47 ∧ ∀ c ∈ v, ¬ IsWhitespace c

/-- One or more decimal digits. -/
def IsDigits (a : GoString) : Prop := a ≠ [] ∧ ∀ c ∈ a, 48 ≤ c ∧ c ≤ 57

/-- ReqHTTPVersion rule: one or more digits, optionally followed by `.` and one or
more digits. -/
def SpecReqHTTPVersion (v : GoString) : Prop :=
  ∃ a, IsDigits a ∧ (v = a ∨ ∃ b, IsDigits b ∧ v = a ++ 46 :: b)

/-- Vhost rule of the specification, `^[a-zA-Z0-9.:-]+$`: a non-empty text of ASCII
letters, digits, `.`, `:` and `-`. -/
def SpecVhost (v : GoString) : Prop :=
  v ≠ [] ∧ ∀ c ∈ v, (97 ≤ c ∧ c ≤ 122) ∨ (65 ≤ c ∧ c ≤ 90) ∨ (48 ≤ c ∧ c ≤ 57) ∨
    c = 46 ∨ c = 58 ∨ c = 45

/-! ## CSV formats (`pkg/logs/csv.go`)

`encoding/csv` and `errors` belong to the Go standard library.  The reader that
tokenises a text is a parameter of the embedding; the errors it can return are the
values of `GoError`.  The interface `LogLine` of package `logs` is a state type with
an `Assign` function.  A value of Go's 64-bit `int` is an `Int` between `-2^63` and
`2^63 - 1`, and the sums of `newCSVFormat` wrap around as Go's do (`goAdd`). -/

namespace Logs

/-- Is the integer a value of Go's 64-bit `int`? -/
def IsInt64 (x : Int) : Prop := -(2 : Int) ^ 63 ≤ x ∧ x < (2 : Int) ^ 63

instance (x : Int) : Decidable (IsInt64 x) := by
  unfold IsInt64
  infer_instance

/-- The value of `int` congruent to `x` modulo `2^64`. -/
def wrapInt (x : Int) : Int := (x + (2 : Int) ^ 63) % (2 : Int) ^ 64 - (2 : Int) ^ 63

/-- Go's `a + b` on `int`: the sum, wrapped around at 64 bits.  Integers outside the
64-bit range are no values of `int`; on them the function is the plain sum. -/
def goAdd (a b : Int) : Int := if IsInt64 a ∧ IsInt64 b then wrapInt (a + b) else a + b

/-- An `error` coming from the standard library: the three sentinels of
`encoding/csv` that `isCSVParseError` names, `io.EOF`, any other plain error, and
an error whose `Unwrap` returns `inner` (such as `*csv.ParseError`). -/
inductive GoError where
  | ErrBareQuote
  | ErrFieldCount
  | ErrQuote
  | EOF
  | other (id : Nat)
  | wrap (info : Nat) (inner : GoError)
  deriving DecidableEq, Repr

/-- `errors.Is(err, target)`: `err` or an error of its `Unwrap` chain equals
`target`. -/
def errorsIs : GoError → GoError → Bool
  | .wrap info inner, target => (GoError.wrap info inner == target) || errorsIs inner target
  | err, target => err == target

/-- The struct `CSVConfig`; a nil `CheckField` is `none`. -/
structure CSVConfig where
  Delimiter : Nat
  TrimLeadingSpace : Bool
  Format : GoString
  CheckField : Option (GoString → GoString × Int × Bool)

/-- A `map[string]int`: its entries, with pairwise distinct keys.  The order of the
entries stands for the unspecified order of `range` over the map. -/
abbrev FieldMap := List (GoString × Int)

/-- The test `_, ok := m[name]`. -/
def FieldMap.hasKey (m : FieldMap) (name : GoString) : Bool := m.any fun e => e.1 == name

/-- The assignment `m[name] = idx`. -/
def FieldMap.set : FieldMap → GoString → Int → FieldMap
  | [], name, idx => [(name, idx)]
  | e :: es, name, idx => if e.1 = name then (name, idx) :: es else e :: FieldMap.set es name idx

/-- The struct `csvFormat`. -/
structure csvFormat where
  raw : GoString
  maxIndex : Int
  fieldIndexes : FieldMap
  deriving DecidableEq, Repr

/-- The value of type `error` that the parser returns: a `*ParseError` with the
message `csv parse: unmatched line`, a `*ParseError` with message `csv parse: %v`
wrapping an error of `Assign` or a read error, or a read error handed on
unchanged. -/
inductive LogsError (E : Type) where
  | unmatchedLine
  | assignFailed (err : E)
  | readFailed (err : GoError)
  | unchanged (err : GoError)
  deriving DecidableEq, Repr

/-- Is the error a `*ParseError`? -/
def LogsError.isParseError {E : Type} : LogsError E → Bool
  | .unchanged _ => false
  | _ => true

/-- How a call ends: it returns an `error` (`none` is `nil`), or the run-time panics
on an index out of range. -/
inductive Outcome (E : Type) where
  | returned (err : Option (LogsError E))
  | indexOutOfRange
  deriving DecidableEq, Repr

/-- The errors of `newCSVFormat`: the error of the reader, or
`duplicate field: %s`. -/
inductive FormatError where
  | read (err : GoError)
  | duplicateField (name : GoString)
  deriving DecidableEq, Repr

/-- `strings.Trim(field, "\"")`: drop the double-quotes at both ends. -/
def trimQuotes (field : GoString) : GoString :=
  ((field.dropWhile (· == 34)).reverse.dropWhile (· == 34)).reverse

def checkCSVFormatField (name : GoString) : GoString × Int × Bool :=
  if name.length < 2 ∨ !Weblog.hasPrefix name (str "$") then ([], 0, false)
  else (name, 0, true)

/-- The variables `fieldIndexes`, `max` and `offset` of `newCSVFormat`. -/
structure FormatVars where
  fieldIndexes : FieldMap
  max : Int
  offset : Int

/-- The loop `for i, field := range fields` of `newCSVFormat`, from token number `i`
on. -/
def formatLoop (check : GoString → GoString × Int × Bool) :
    Nat → List GoString → FormatVars → Except FormatError FormatVars
  | _, [], vars => .ok vars
  | i, field :: rest, vars =>
    let field := trimQuotes field
    let name := (check field).1
    let addOffset := (check field).2.1
    let valid := (check field).2.2
    let offset := goAdd vars.offset addOffset
    if !valid then formatLoop check (i + 1) rest { vars with offset := offset }
    else
      let idx := goAdd (i : Int) offset
      if vars.fieldIndexes.hasKey name then .error (.duplicateField name)
      else
        formatLoop check (i + 1) rest
          { fieldIndexes := vars.fieldIndexes.set name idx
            max := if vars.max < idx then idx else vars.max
            offset := offset }

/-- The variable `check` of `newCSVFormat`: `checkCSVFormatField`, replaced by
`config.CheckField` when that is not nil. -/
def CSVConfig.check (config : CSVConfig) : GoString → GoString × Int × Bool :=
  match config.CheckField with
  | some f => f
  | none => checkCSVFormatField

/-- `newCSVFormat`, given the `Read` of a `csv.Reader` set up with the delimiter and
the trim rule of the configuration. -/
def newCSVFormat (csvRead : Nat → Bool → GoString → Except GoError (List GoString))
    (config : CSVConfig) : Except FormatError csvFormat :=
  match csvRead config.Delimiter config.TrimLeadingSpace config.Format with
  | .error err => .error (.read err)
  | .ok fields =>
    match formatLoop config.check 0 fields { fieldIndexes := [], max := 0, offset := 0 } with
    | .error err => .error err
    | .ok vars =>
      .ok { raw := config.Format, maxIndex := vars.max, fieldIndexes := vars.fieldIndexes }

/-- The loop `for field, idx := range f.fieldIndexes` of `csvFormat.parse`; `assign`
is the method `Assign` of the destination. -/
def assignAll {σ E : Type} (assign : σ → GoString → GoString → σ × Option E)
    (record : List GoString) : FieldMap → σ → σ × Outcome E
  | [], line => (line, .returned none)
  | (field, idx) :: rest, line =>
    if idx < 0 ∨ (record.length : Int) ≤ idx then (line, .indexOutOfRange)
    else
      match assign line field (record.getD idx.toNat []) with
      | (line, some err) => (line, .returned (some (.assignFailed err)))
      | (line, none) => assignAll assign record rest line

def csvFormat.parse {σ E : Type} (f : csvFormat)
    (assign : σ → GoString → GoString → σ × Option E)
    (record : List GoString) (line : σ) : σ × Outcome E :=
  if (record.length : Int) ≤ f.maxIndex then (line, .returned (some .unmatchedLine))
  else assignAll assign record f.fieldIndexes line

def isCSVParseError (err : GoError) : Bool :=
  errorsIs err .ErrBareQuote || errorsIs err .ErrFieldCount || errorsIs err .ErrQuote

def handleCSVReadError {E : Type} (err : GoError) : LogsError E :=
  if isCSVParseError err then .readFailed err else .unchanged err

/-- `CSVParser.ReadLine` and `CSVParser.Parse`, given what `Read` returned. -/
def ReadLine {σ E : Type} (format : csvFormat)
    (assign : σ → GoString → GoString → σ × Option E)
    (read : Except GoError (List GoString)) (line : σ) : σ × Outcome E :=
  match read with
  | .error err => (line, .returned (some (handleCSVReadError err)))
  | .ok record => format.parse assign record line

/-! ### The columns as the specification words them -/

/-- What the field check answers for token number `j` of the format. -/
def checked (check : GoString → GoString × Int × Bool) (fields : List GoString) (j : Nat) :
    GoString × Int × Bool :=
  check (trimQuotes (fields.getD j []))

/-- Sum of the offset adjustments of the tokens `0 … i`, the last included. -/
def offsetThrough (check : GoString → GoString × Int × Bool) (fields : List GoString)
    (i : Nat) : Int :=
  ((List.range (i + 1)).map fun j => (checked check fields j).2.1).sum

/-- The names of the accepted tokens, in format order. -/
def acceptedNames (check : GoString → GoString × Int × Bool) (fields : List GoString) :
    List GoString :=
  ((fields.map fun field => check (trimQuotes field)).filter fun r => r.2.2).map fun r => r.1

/-- The entries that the loop of `newCSVFormat` adds from token number `i` on, when
the running offset is `off`: one per accepted token, in format order. -/
def acceptedFrom (check : GoString → GoString × Int × Bool) :
    Nat → Int → List GoString → FieldMap
  | _, _, [] => []
  | i, off, field :: rest =>
    let r := check (trimQuotes field)
    if r.2.2 then
      (r.1, goAdd (i : Int) (goAdd off r.2.1)) :: acceptedFrom check (i + 1) (goAdd off r.2.1) rest
    else acceptedFrom check (i + 1) (goAdd off r.2.1) rest

/-- A reader for one-line texts without quotes, for an ASCII delimiter and with
`TrimLeadingSpace` unset: the fields between the delimiters, as `encoding/csv`
returns them for such a text, and `io.EOF` on the empty text.  Everything else is
outside its domain and answered with an error of its own. -/
def plainRead (comma : Nat) (trimLeadingSpace : Bool) (text : GoString) :
    Except GoError (List GoString) :=
  if comma = 0 ∨ comma = 34 ∨ comma = 10 ∨ comma = 13 ∨ 128 ≤ comma then .error (.other 1)
  else if trimLeadingSpace then .error (.other 2)
  else if text = [] then .error .EOF
  else if text.any fun c => c == 34 || c == 10 || c == 13 then .error (.other 3)
  else .ok (text.splitOn comma)

/-- A field check that accepts every token under its own name and moves the column
one to the left. -/
def shiftLeftCheck (name : GoString) : GoString × Int × Bool := (name, -1, true)

/-- A field check that rejects the token `$t` and counts one extra column for it (a
token that spans two columns of the line), and otherwise is the default check. -/
def wideCheck (name : GoString) : GoString × Int × Bool :=
  if name = str "$t" then ([], 1, false) else checkCSVFormatField name

/-- The format `$a $t $b` with the delimiter ` ` and the field check `wideCheck`. -/
def wideConfig : CSVConfig :=
  { Delimiter := 32, TrimLeadingSpace := false, Format := str "$a $t $b",
    CheckField := some wideCheck }

/-- The format `$a` with the field check `shiftLeftCheck`. -/
def shiftLeftConfig : CSVConfig :=
  { Delimiter := 32, TrimLeadingSpace := false, Format := str "$a",
    CheckField := some shiftLeftCheck }

/-- The format `$a x $b` with the delimiter ` ` and no field check. -/
def plainConfig : CSVConfig :=
  { Delimiter := 32, TrimLeadingSpace := false, Format := str "$a x $b", CheckField := none }

/-- The format `$a x $a` with no field check: the accepted name `$a` occurs twice. -/
def twiceConfig : CSVConfig :=
  { Delimiter := 32, TrimLeadingSpace := false, Format := str "$a x $a", CheckField := none }

/-- The format that `wideConfig` describes: `$a` in column 0, `$b` in column 3. -/
def wideFormat : csvFormat :=
  { raw := str "$a $t $b", maxIndex := 3, fieldIndexes := [(str "$a", 0), (str "$b", 3)] }

/-- A field check that rejects the token `$t` with the adjustment `MaxInt64` and
accepts every other token under its own name with the adjustment 1. -/
def hugeCheck (name : GoString) : GoString × Int × Bool :=
  if name = str "$t" then ([], (2 : Int) ^ 63 - 1, false) else (name, 1, true)

/-- The format `$t $b` with the field check `hugeCheck`. -/
def hugeConfig : CSVConfig :=
  { Delimiter := 32, TrimLeadingSpace := false, Format := str "$t $b",
    CheckField := some hugeCheck }

/-- A field check that rejects the token `$z` and counts one column less for it (a
token that has no column in the line), and otherwise is the default check. -/
def zeroColumnCheck (name : GoString) : GoString × Int × Bool :=
  if name = str "$z" then ([], -1, false) else checkCSVFormatField name

/-- The format `$a $z $b` with the field check `zeroColumnCheck`. -/
def zeroColumnConfig : CSVConfig :=
  { Delimiter := 32, TrimLeadingSpace := false, Format := str "$a $z $b",
    CheckField := some zeroColumnCheck }

/-- The format that `zeroColumnConfig` describes: `$a` in column 0, `$b` in column 1. -/
def zeroColumnFormat : csvFormat :=
  { raw := str "$a $z $b", maxIndex := 1, fieldIndexes := [(str "$a", 0), (str "$b", 1)] }

/-- `err` is `target` or wraps it: `target` is on the `Unwrap` chain of `err`. -/
inductive IsOrWraps : GoError → GoError → Prop where
  | self (err : GoError) : IsOrWraps err err
  | wrap (info : Nat) (inner target : GoError) :
      IsOrWraps inner target → IsOrWraps (.wrap info inner) target

/-- The `Assign` of the web-log record as the destination of the parser. -/
def weblogAssign (line : LogLine decModel) (field value : GoString) :
    LogLine decModel × Option Err :=
  line.Assign field value

end Logs

/-! ## Metrics of the web-log module (`modules/weblog/metrics.go`)

Package `pkg/metrics` is not among the sources.  Its interface types and the methods
that `metrics.go` calls on them are parameters of the embedding (`MetricsPkg`).  An
object behind an interface is embedded as a value; `newMetricsData` gives every field
an object of its own. -/

/-- A `map[string]int64`. -/
abbrev OutMap := GoString → Option Int

/-- The assignment `rv[key] = v`. -/
def OutMap.set (rv : OutMap) (key : GoString) (v : Int) : OutMap :=
  fun k => if k = key then some v else rv k

/-- The interface types `Counter`, `CounterVec`, `UniqueCounter`, `Summary` and
`Histogram` of package `pkg/metrics`, with the methods `Reset` of `UniqueCounter`
and `Summary` and the method `WriteTo` of `Summary`. -/
structure MetricsPkg where
  Counter : Type
  CounterVec : Type
  UniqueCounter : Type
  Summary : Type
  Histogram : Type
  uniqueReset : UniqueCounter → UniqueCounter
  summaryReset : Summary → Summary
  summaryWriteTo : Summary → OutMap → GoString → Int → Int → OutMap

/-- The struct `patternMetrics`. -/
structure patternMetrics (K : MetricsPkg) where
  RespCode : K.CounterVec
  BytesSent : K.Counter
  BytesReceived : K.Counter
  ReqProcTime : K.Summary

/-- The struct `metricsData`; a Go map is the list of its entries. -/
structure metricsData (K : MetricsPkg) where
  Requests : K.Counter
  ReqUnmatched : K.Counter
  RespCode : K.CounterVec
  Resp1xx : K.Counter
  Resp2xx : K.Counter
  Resp3xx : K.Counter
  Resp4xx : K.Counter
  Resp5xx : K.Counter
  ReqSuccess : K.Counter
  ReqRedirect : K.Counter
  ReqBad : K.Counter
  ReqError : K.Counter
  UniqueIPv4 : K.UniqueCounter
  UniqueIPv6 : K.UniqueCounter
  BytesSent : K.Counter
  BytesReceived : K.Counter
  ReqProcTime : K.Summary
  ReqProcTimeHist : K.Histogram
  UpsRespTime : K.Summary
  UpsRespTimeHist : K.Histogram
  ReqVhost : K.CounterVec
  ReqPort : K.CounterVec
  ReqMethod : K.CounterVec
  ReqURLPattern : K.CounterVec
  ReqVersion : K.CounterVec
  ReqSSLProto : K.CounterVec
  ReqSSLCipherSuite : K.CounterVec
  ReqHTTPScheme : K.Counter
  ReqHTTPSScheme : K.Counter
  ReqIPv4 : K.Counter
  ReqIPv6 : K.Counter
  ReqCustomField : List (GoString × K.CounterVec)
  URLPatternStats : List (GoString × patternMetrics K)

def metricsData.reset {K : MetricsPkg} (m : metricsData K) : metricsData K :=
  { m with
    UniqueIPv4 := K.uniqueReset m.UniqueIPv4
    UniqueIPv6 := K.uniqueReset m.UniqueIPv6
    ReqProcTime := K.summaryReset m.ReqProcTime
    UpsRespTime := K.summaryReset m.UpsRespTime
    URLPatternStats := m.URLPatternStats.map fun e =>
      (e.1, { e.2 with ReqProcTime := K.summaryReset e.2.ReqProcTime }) }

/-- Modelled from the spec: the matcher variants of `pkg/matcher` (section 4.1 of the
specification and the constructors named in `logical_test.go`): the identities
`TRUE` and `FALSE`, the primitives, and the composites. -/
inductive Matcher where
  | trueMatcher
  | falseMatcher
  | stringFullMatcher (s : GoString)
  | stringPartialMatcher (s : GoString)
  | stringPrefixMatcher (s : GoString)
  | stringSuffixMatcher (s : GoString)
  | regexMatcher (pattern : GoString)
  | globMatcher (pattern : GoString)
  | andMatcher (lhs rhs : Matcher)
  | orMatcher (lhs rhs : Matcher)
  | negMatcher (m : Matcher)
  deriving DecidableEq, Repr

/-- Modelled from the spec: `TRUE()`, the matcher that always matches. -/
def Matcher.TRUE : Matcher := .trueMatcher

/-- Modelled from the spec: `FALSE()`, the matcher that never matches (`matcherF` in
the test). -/
def Matcher.FALSE : Matcher := .falseMatcher

/-- Is the matcher one of the two identities? -/
def Matcher.isIdentity : Matcher → Bool
  | .trueMatcher => true
  | .falseMatcher => true
  | _ => false

/-- Modelled from the spec: the constructor `And` of `pkg/matcher`, which is not among
the sources.  `And(FALSE, x)` is `FALSE`, `And(TRUE, x)` is `x`, symmetrically for the
other argument, and otherwise the composite `andMatcher{lhs, rhs}`. -/
def Matcher.And : Matcher → Matcher → Matcher
  | .falseMatcher, _ => .falseMatcher
  | .trueMatcher, rhs => rhs
  | _, .falseMatcher => .falseMatcher
  | lhs, .trueMatcher => lhs
  | lhs, rhs => .andMatcher lhs rhs

/-- Modelled from the spec: the constructor `Or` of `pkg/matcher`, which is not among
the sources.  `Or(TRUE, x)` is `TRUE`, `Or(FALSE, x)` is `x`, symmetrically for the
other argument, and otherwise the composite `orMatcher{lhs, rhs}`. -/
def Matcher.Or : Matcher → Matcher → Matcher
  | .trueMatcher, _ => .trueMatcher
  | .falseMatcher, rhs => rhs
  | _, .trueMatcher => .trueMatcher
  | lhs, .falseMatcher => lhs
  | lhs, rhs => .orMatcher lhs rhs

/-! ## Lemmas on patterns -/

namespace Regex

theorem matchString_none (s : GoString) : MatchString none s = false := by
  induction s with
  | nil => rfl
  | cons c cs ih => simpa [MatchString, deriv] using ih

theorem matchString_eps (s : GoString) : MatchString eps s = true ↔ s = [] := by
  cases s with
  | nil => simp [MatchString, nullable]
  | cons c cs => simp [MatchString, deriv, matchString_none]

theorem matchString_alt (a b : Regex) (s : GoString) :
    MatchString (alt a b) s = (MatchString a s || MatchString b s) := by
  induction s generalizing a b with
  | nil => simp [MatchString, nullable]
  | cons c cs ih => simp [MatchString, deriv, ih]

theorem matchString_seq (a b : Regex) (s : GoString) :
    MatchString (seq a b) s = true ↔
      ∃ t u, s = t ++ u ∧ MatchString a t = true ∧ MatchString b u = true := by
  induction s generalizing a b with
  | nil =>
    constructor
    · intro h
      simp only [MatchString, nullable, Bool.and_eq_true] at h
      exact ⟨[], [], rfl, h.1, h.2⟩
    · rintro ⟨t, u, h, ha, hb⟩
      obtain ⟨rfl, rfl⟩ := List.append_eq_nil.1 h.symm
      simpa [MatchString, nullable] using And.intro ha hb
  | cons c cs ih =>
    have step : MatchString (seq (deriv c a) b) cs = true ↔
        ∃ t u, c :: cs = (c :: t) ++ u ∧ MatchString a (c :: t) = true ∧
          MatchString b u = true := by
      rw [ih]
      constructor
      · rintro ⟨t, u, h, ha, hb⟩
        exact ⟨t, u, by simp [h], ha, hb⟩
      · rintro ⟨t, u, h, ha, hb⟩
        exact ⟨t, u, by simpa using h, ha, hb⟩
    by_cases hn : a.nullable = true
    · simp only [MatchString, deriv, hn, if_true, matchString_alt, Bool.or_eq_true]
      constructor
      · rintro (h | h)
        · obtain ⟨t, u, h1, h2, h3⟩ := step.1 h
          exact ⟨c :: t, u, h1, h2, h3⟩
        · exact ⟨[], c :: cs, rfl, hn, h⟩
      · rintro ⟨t, u, h, ha, hb⟩
        cases t with
        | nil =>
          right
          simp only [List.nil_append] at h
          subst h
          exact hb
        | cons d t =>
          left
          have hd : d = c := by simpa using (List.cons_eq_cons.1 h).1.symm
          subst hd
          exact step.2 ⟨t, u, h, ha, hb⟩
    · simp only [MatchString, deriv, hn, if_false, Bool.false_eq_true]
      constructor
      · intro h
        obtain ⟨t, u, h1, h2, h3⟩ := step.1 h
        exact ⟨c :: t, u, h1, h2, h3⟩
      · rintro ⟨t, u, h, ha, hb⟩
        cases t with
        | nil => exact absurd ha hn
        | cons d t =>
          have hd : d = c := by simpa using (List.cons_eq_cons.1 h).1.symm
          subst hd
          exact step.2 ⟨t, u, h, ha, hb⟩

theorem matchString_cls (neg : Bool) (rs : List (Nat × Nat)) (s : GoString) :
    MatchString (cls neg rs) s = true ↔ ∃ c, s = [c] ∧ inClass neg rs c = true := by
  cases s with
  | nil => simp [MatchString, nullable]
  | cons c cs =>
    by_cases hc : inClass neg rs c = true
    · simp only [MatchString, deriv, hc, if_true, matchString_eps]
      constructor
      · rintro rfl
        exact ⟨c, rfl, hc⟩
      · rintro ⟨d, h, _⟩
        exact (List.cons_eq_cons.1 h).2
    · simp only [MatchString, deriv, hc, matchString_none, Bool.false_eq_true, if_false,
        false_iff]
      rintro ⟨d, h, hd⟩
      rw [(List.cons_eq_cons.1 h).1] at hc
      exact hc hd

theorem matchString_star_cls (neg : Bool) (rs : List (Nat × Nat)) (s : GoString) :
    MatchString (star (cls neg rs)) s = true ↔ ∀ c ∈ s, inClass neg rs c = true := by
  induction s with
  | nil => simp [MatchString, nullable]
  | cons c cs ih =>
    by_cases hc : inClass neg rs c = true
    · have : MatchString (seq eps (star (cls neg rs))) cs = MatchString (star (cls neg rs)) cs := by
        cases cs <;> simp [MatchString, nullable, deriv, matchString_alt, matchString_none,
          matchString_seq]
      simp [MatchString, deriv, hc, this, ih]
    · have : MatchString (seq none (star (cls neg rs))) cs = false := by
        cases h : MatchString (seq none (star (cls neg rs))) cs with
        | false => rfl
        | true =>
          obtain ⟨t, u, _, ht, _⟩ := (matchString_seq _ _ _).1 h
          simp [matchString_none] at ht
      simp [MatchString, deriv, hc, this]

theorem matchString_plus_cls (neg : Bool) (rs : List (Nat × Nat)) (s : GoString) :
    MatchString (plus (cls neg rs)) s = true ↔ s ≠ [] ∧ ∀ c ∈ s, inClass neg rs c = true := by
  unfold plus
  rw [matchString_seq]
  constructor
  · rintro ⟨t, u, rfl, ht, hu⟩
    obtain ⟨c, rfl, hc⟩ := (matchString_cls _ _ _).1 ht
    refine ⟨by simp, ?_⟩
    intro d hd
    rcases List.mem_cons.1 hd with rfl | hd
    · exact hc
    · exact (matchString_star_cls _ _ _).1 hu d hd
  · rintro ⟨hne, hall⟩
    cases s with
    | nil => exact absurd rfl hne
    | cons c cs =>
      refine ⟨[c], cs, rfl, (matchString_cls _ _ _).2 ⟨c, rfl, hall c (by simp)⟩, ?_⟩
      exact (matchString_star_cls _ _ _).2 fun d hd => hall d (List.mem_cons_of_mem _ hd)

theorem matchString_byte (c : Nat) (s : GoString) : MatchString (byte c) s = true ↔ s = [c] := by
  unfold byte
  rw [matchString_cls]
  constructor
  · rintro ⟨d, rfl, hd⟩
    have : d = c := by
      simp [inClass, inRanges] at hd
      omega
    rw [this]
  · rintro rfl
    exact ⟨c, rfl, by simp [inClass, inRanges]⟩

theorem matchString_lit (t s : GoString) : MatchString (lit t) s = true ↔ s = t := by
  induction t generalizing s with
  | nil => simpa [lit] using matchString_eps s
  | cons c cs ih =>
    simp only [lit, matchString_seq, matchString_byte, ih]
    constructor
    · rintro ⟨t, u, rfl, rfl, rfl⟩
      rfl
    · rintro rfl
      exact ⟨[c], cs, rfl, rfl, rfl⟩

end Regex

/-! ## What the five patterns accept -/

open Regex in
theorem reVhost_iff (v : GoString) :
    reVhost.MatchString v = true ↔
      v ≠ [] ∧ ∀ c ∈ v, (97 ≤ c ∧ c ≤ 122) ∨ (65 ≤ c ∧ c ≤ 90) ∨ (48 ≤ c ∧ c ≤ 57) ∨
        (46 ≤ c ∧ c ≤ 58) := by
  unfold reVhost
  rw [matchString_plus_cls]
  simp [inClass, inRanges]

open Regex in
theorem reReqHTTPMethod_iff (v : GoString) :
    reReqHTTPMethod.MatchString v = true ↔ SpecReqMethod v := by
  unfold reReqHTTPMethod SpecReqMethod
  rw [matchString_plus_cls]
  simp [inClass, inRanges]

open Regex in
theorem reClientAddr_iff (v : GoString) :
    reClientAddr.MatchString v = true ↔ SpecClientAddr v := by
  unfold reClientAddr SpecClientAddr
  rw [matchString_alt, Bool.or_eq_true, matchString_plus_cls, matchString_lit]
  constructor
  · rintro (⟨h1, h2⟩ | h)
    · refine Or.inr ⟨h1, fun c hc => ?_⟩
      have := h2 c hc
      simp [inClass, inRanges] at this
      omega
    · exact Or.inl h
  · rintro (h | ⟨h1, h2⟩)
    · exact Or.inr h
    · refine Or.inl ⟨h1, fun c hc => ?_⟩
      have := h2 c hc
      simp [inClass, inRanges]
      omega

open Regex in
theorem reURI_iff (v : GoString) : reURI.MatchString v = true ↔ SpecReqURI v := by
  unfold reURI SpecReqURI
  rw [matchString_seq]
  have key : ∀ c : Nat, inClass true [(9, 9), (10, 10), (12, 12), (13, 13), (32, 32)] c = true ↔
      ¬ IsWhitespace c := by
    intro c
    simp [inClass, inRanges, IsWhitespace]
  constructor
  · rintro ⟨t, u, rfl, ht, hu⟩
    rw [matchString_byte] at ht
    subst ht
    refine ⟨rfl, fun c hc => ?_⟩
    rcases List.mem_cons.1 hc with rfl | hc
    · simp [IsWhitespace]
    · exact (key c).1 ((matchString_star_cls _ _ _).1 hu c hc)
  · rintro ⟨hh, hall⟩
    cases v with
    | nil => simp at hh
    | cons a t =>
      have ha : a = 47 := by simpa using hh
      subst ha
      refine ⟨[47], t, rfl, (matchString_byte _ _).2 rfl, ?_⟩
      exact (matchString_star_cls _ _ _).2 fun c hc =>
        (key c).2 (hall c (List.mem_cons_of_mem _ hc))

open Regex in
theorem digits_iff (a : GoString) :
    MatchString (plus (cls false [(48, 57)])) a = true ↔ IsDigits a := by
  unfold IsDigits
  rw [matchString_plus_cls]
  simp [inClass, inRanges]

open Regex in
theorem reReqHTTPVersion_iff (v : GoString) :
    reReqHTTPVersion.MatchString v = true ↔ SpecReqHTTPVersion v := by
  unfold reReqHTTPVersion SpecReqHTTPVersion opt
  rw [matchString_seq]
  constructor
  · rintro ⟨a, u, rfl, ha, hu⟩
    refine ⟨a, (digits_iff a).1 ha, ?_⟩
    rw [matchString_alt, Bool.or_eq_true, matchString_eps, matchString_seq] at hu
    rcases hu with ⟨d, b, rfl, hd, hb⟩ | rfl
    · rw [matchString_byte] at hd
      subst hd
      exact Or.inr ⟨b, (digits_iff b).1 hb, rfl⟩
    · exact Or.inl (by simp)
  · rintro ⟨a, ha, h | ⟨b, hb, h⟩⟩
    · refine ⟨a, [], by simp [h], (digits_iff a).2 ha, ?_⟩
      rw [matchString_alt, Bool.or_eq_true, matchString_eps]
      exact Or.inr rfl
    · refine ⟨a, 46 :: b, h, (digits_iff a).2 ha, ?_⟩
      rw [matchString_alt, Bool.or_eq_true, matchString_seq]
      exact Or.inl ⟨[46], b, rfl, (matchString_byte _ _).2 rfl, (digits_iff b).2 hb⟩

/-! ## Lemmas on the record -/

theorem str_hyphen : hyphen = [45] := by decide

theorem str_http : str "HTTP/" = [72, 84, 84, 80, 47] := by decide

theorem emptyNumber_eq : emptyNumber = -9999 := rfl

theorem isEmptyString_iff (s : GoString) : isEmptyString s = true ↔ s = emptyString := by
  simp [isEmptyString]

theorem isEmptyNumber_iff (n : Int) : isEmptyNumber n = true ↔ n = -9999 := by
  simp [isEmptyNumber, emptyNumber]

namespace LogLine

variable {M : FloatModel}

theorem verifyMandatoryFields_eq_none (l : LogLine M) :
    l.verifyMandatoryFields = none ↔ 100 ≤ l.RespCodeStatus ∧ l.RespCodeStatus ≤ 599 := by
  unfold verifyMandatoryFields hasRespCodeStatus
  by_cases he : isEmptyNumber l.RespCodeStatus = true
  · have := (isEmptyNumber_iff _).1 he
    simp [he]
    omega
  · have hne : l.RespCodeStatus ≠ -9999 := fun h => he ((isEmptyNumber_iff _).2 h)
    simp only [he, Bool.not_false, Bool.true_eq_false, if_false]
    simp only [Bool.not_eq_true] at he
    simp only [he, Bool.not_false, Bool.not_true]
    by_cases hr : l.RespCodeStatus < 100 ∨ l.RespCodeStatus ≥ 600
    · simp [hr]
      omega
    · simp [hr]
      omega

theorem ite_guard_eq_none (a b : Bool) (e : Err) (rest : Option Err) :
    (if (a && b) = true then some e else rest) = none ↔ (a = true → (!b) = true) ∧ rest = none := by
  cases a <;> cases b <;> simp

theorem verifyOptionalFields_eq_none (l : LogLine M) :
    l.verifyOptionalFields = none ↔
      (l.hasVhost = true → reVhost.MatchString l.Vhost = true) ∧
      (l.hasClientAddr = true → reClientAddr.MatchString l.ClientAddr = true) ∧
      (l.hasReqHTTPMethod = true → reReqHTTPMethod.MatchString l.ReqHTTPMethod = true) ∧
      (l.hasReqURI = true → reURI.MatchString l.ReqURI = true) ∧
      (l.hasReqHTTPVersion = true → reReqHTTPVersion.MatchString l.ReqHTTPVersion = true) ∧
      (l.hasReqSize = true → 0 ≤ l.ReqSize) ∧
      (l.hasRespSize = true → 0 ≤ l.RespSize) ∧
      (l.hasRespTime = true → M.lt l.RespTime (M.ofInt 0) = false) ∧
      (l.hasUpstreamRespTime = true → M.lt l.UpstreamRespTime (M.ofInt 0) = false) := by
  unfold verifyOptionalFields
  simp only [ite_guard_eq_none, Bool.not_eq_true', Bool.not_eq_true, decide_eq_false_iff_not,
    Int.not_lt, and_true, Bool.not_eq_false', Bool.not_eq_false]

theorem verify_eq_none (l : LogLine M) :
    l.Verify = none ↔ l.verifyMandatoryFields = none ∧ l.verifyOptionalFields = none := by
  unfold Verify
  cases l.verifyMandatoryFields <;> simp

end LogLine

/-! ## Lemmas on `indexByte` and the request setters -/

theorem indexByte_eq_none (s : GoString) (c : Nat) : indexByte s c = none ↔ c ∉ s := by
  induction s with
  | nil => simp [indexByte]
  | cons b bs ih =>
    by_cases h : b = c
    · simp [indexByte, h]
    · have h' : ¬ c = b := fun e => h e.symm
      simp [indexByte, h, h', ih]

theorem indexByte_eq_some (s : GoString) (c i : Nat) (h : indexByte s c = some i) :
    s = s.take i ++ c :: s.drop (i + 1) ∧ c ∉ s.take i := by
  induction s generalizing i with
  | nil => simp [indexByte] at h
  | cons b bs ih =>
    by_cases hb : b = c
    · simp [indexByte, hb] at h
      subst h
      simp [hb]
    · simp only [indexByte, hb, if_false, Option.map_eq_some'] at h
      obtain ⟨k, hk, rfl⟩ := h
      obtain ⟨h1, h2⟩ := ih k hk
      have hb' : ¬ c = b := fun e => hb e.symm
      refine ⟨?_, ?_⟩
      · simp only [List.take_succ_cons, List.drop_succ_cons, List.cons_append]
        rw [← h1]
      · simp [List.take_succ_cons, hb', h2]

theorem indexByte_append (m r : GoString) (c : Nat) (h : c ∉ m) :
    indexByte (m ++ c :: r) c = some m.length := by
  induction m with
  | nil => simp [indexByte]
  | cons b bs ih =>
    have hb : ¬ b = c := fun e => h (by simp [e])
    have hbs : c ∉ bs := fun e => h (List.mem_cons_of_mem _ e)
    simp [indexByte, hb, ih hbs]

namespace LogLine

variable {M : FloatModel}

theorem assignReqHTTPVersion_http (l : LogLine M) (ver : GoString) (h : ver ≠ []) :
    l.assignReqHTTPVersion (str "HTTP/" ++ ver) = ({ l with ReqHTTPVersion := ver }, none) := by
  unfold assignReqHTTPVersion hasPrefix
  have hl : 0 < ver.length := List.length_pos.2 h
  have h1 : ¬ (str "HTTP/" ++ ver).length ≤ 5 := by
    rw [str_http]
    simp only [List.length_append, List.length_cons, List.length_nil]
    omega
  have h2 : (str "HTTP/").isPrefixOf (str "HTTP/" ++ ver) = true :=
    List.isPrefixOf_iff_prefix.2 (List.prefix_append _ _)
  have h3 : (str "HTTP/" ++ ver).drop 5 = ver := by
    rw [str_http]
    rfl
  have h4 : ¬ ((str "HTTP/" ++ ver).length ≤ 5 ∨
      (!(str "HTTP/").isPrefixOf (str "HTTP/" ++ ver)) = true) := by
    rw [h2]
    simpa using h1
  rw [if_neg h4, h3]

theorem assignReqHTTPVersion_ok (l : LogLine M) (proto : GoString)
    (h : (l.assignReqHTTPVersion proto).2 = none) :
    ∃ ver, ver ≠ [] ∧ proto = str "HTTP/" ++ ver := by
  unfold assignReqHTTPVersion hasPrefix at h
  by_cases hc : proto.length ≤ 5 ∨ (!(str "HTTP/").isPrefixOf proto) = true
  · rw [if_pos hc] at h
    simp at h
  · simp only [not_or, Bool.not_eq_true', Bool.not_eq_false] at hc
    obtain ⟨ver, hver⟩ := List.isPrefixOf_iff_prefix.1 hc.2
    refine ⟨ver, ?_, hver.symm⟩
    rintro rfl
    have : proto.length = 5 := by rw [← hver, str_http]; rfl
    omega

theorem take_length_append_cons (m r : GoString) (c : Nat) :
    (m ++ c :: r).take m.length = m := by
  induction m with
  | nil => rfl
  | cons b bs ih => simp [ih]

theorem drop_length_append_cons (m r : GoString) (c : Nat) :
    (m ++ c :: r).drop (m.length + 1) = r := by
  induction m with
  | nil => rfl
  | cons b bs ih => simp [ih]

theorem assignRequest_parts (l : LogLine M) (m u ver : GoString)
    (hm : 32 ∉ m) (hu : 32 ∉ u) (hver : ver ≠ []) :
    l.assignRequest (m ++ 32 :: (u ++ 32 :: (str "HTTP/" ++ ver))) =
      ({ l with ReqHTTPMethod := m, ReqURI := u, ReqHTTPVersion := ver }, none) := by
  unfold assignRequest
  have hne : m ++ 32 :: (u ++ 32 :: (str "HTTP/" ++ ver)) ≠ hyphen := by
    rw [str_hyphen]
    intro h
    have := congrArg List.length h
    simp only [List.length_append, List.length_cons, List.length_nil] at this
    omega
  rw [if_neg hne, indexByte_append m _ 32 hm]
  simp only [take_length_append_cons, drop_length_append_cons]
  rw [indexByte_append u _ 32 hu]
  simp only [take_length_append_cons, drop_length_append_cons]
  rw [assignReqHTTPVersion_http _ _ hver]

theorem assignRequest_ok (l : LogLine M) (v : GoString) (hv : v ≠ hyphen)
    (h : (l.assignRequest v).2 = none) :
    ∃ m u ver, 32 ∉ m ∧ 32 ∉ u ∧ ver ≠ [] ∧
      v = m ++ 32 :: (u ++ 32 :: (str "HTTP/" ++ ver)) := by
  unfold assignRequest at h
  rw [if_neg hv] at h
  cases h1 : indexByte v 32 with
  | none => simp [h1] at h
  | some i =>
    simp only [h1] at h
    obtain ⟨e1, n1⟩ := indexByte_eq_some v 32 i h1
    cases h2 : indexByte (v.drop (i + 1)) 32 with
    | none => simp [h2] at h
    | some k =>
      simp only [h2] at h
      obtain ⟨e2, n2⟩ := indexByte_eq_some _ 32 k h2
      obtain ⟨ver, hver, e3⟩ := assignReqHTTPVersion_ok _ _ h
      refine ⟨v.take i, (v.drop (i + 1)).take k, ver, n1, n2, hver, ?_⟩
      rw [← e3, ← e2]
      exact e1

theorem assignRequest_few_spaces (l : LogLine M) (v : GoString) (hv : v ≠ hyphen)
    (h : List.count 32 v < 2) : (l.assignRequest v).2 = some (.invalidRequest v) := by
  unfold assignRequest
  rw [if_neg hv]
  cases h1 : indexByte v 32 with
  | none => rfl
  | some i =>
    obtain ⟨e1, _⟩ := indexByte_eq_some v 32 i h1
    have hc : List.count 32 (v.drop (i + 1)) = 0 := by
      have := congrArg (List.count 32) e1
      rw [List.count_append, List.count_cons_self] at this
      omega
    have h2 : indexByte (v.drop (i + 1)) 32 = none :=
      (indexByte_eq_none _ _).2 (List.count_eq_zero.1 hc)
    simp only [h2]

end LogLine

/-! ## Dispatch of `Assign` -/

namespace LogLine

variable {M : FloatModel}

theorem assign_Vhost (l : LogLine M) (v : GoString) :
    l.Assign fieldVhost v = ({ l with Vhost := v }, none) := by
  unfold Assign
  rw [if_pos rfl]

theorem assign_ClientAddr (l : LogLine M) (v : GoString) :
    l.Assign fieldClientAddr v = ({ l with ClientAddr := v }, none) := by
  unfold Assign
  rw [if_neg (by decide), if_pos rfl]

theorem assign_Request (l : LogLine M) (v : GoString) :
    l.Assign fieldRequest v = l.assignRequest v := by
  unfold Assign
  rw [if_neg (by decide), if_neg (by decide), if_pos rfl]

theorem assign_ReqMethod (l : LogLine M) (v : GoString) :
    l.Assign fieldReqMethod v = ({ l with ReqHTTPMethod := v }, none) := by
  unfold Assign
  rw [if_neg (by decide), if_neg (by decide), if_neg (by decide), if_pos rfl]

theorem assign_ReqURI (l : LogLine M) (v : GoString) :
    l.Assign fieldReqURI v = ({ l with ReqURI := v }, none) := by
  unfold Assign
  rw [if_neg (by decide), if_neg (by decide), if_neg (by decide), if_neg (by decide), if_pos rfl]

theorem assign_ReqProtocol (l : LogLine M) (v : GoString) :
    l.Assign fieldReqProtocol v = l.assignReqHTTPVersion v := by
  unfold Assign
  rw [if_neg (by decide), if_neg (by decide), if_neg (by decide), if_neg (by decide), if_neg (by decide), if_pos rfl]

theorem assign_RespStatus (l : LogLine M) (v : GoString) :
    l.Assign fieldRespStatus v = l.assignReqCodeStatus v := by
  unfold Assign
  rw [if_neg (by decide), if_neg (by decide), if_neg (by decide), if_neg (by decide), if_neg (by decide), if_neg (by decide), if_pos rfl]

theorem assign_RespSize (l : LogLine M) (v : GoString) :
    l.Assign fieldRespSize v = l.assignRespSize v := by
  unfold Assign
  rw [if_neg (by decide), if_neg (by decide), if_neg (by decide), if_neg (by decide), if_neg (by decide), if_neg (by decide), if_neg (by decide), if_pos rfl]

theorem assign_ReqSize (l : LogLine M) (v : GoString) :
    l.Assign fieldReqSize v = l.assignReqSize v := by
  unfold Assign
  rw [if_neg (by decide), if_neg (by decide), if_neg (by decide), if_neg (by decide), if_neg (by decide), if_neg (by decide), if_neg (by decide), if_neg (by decide), if_pos rfl]

theorem assign_RespTime (l : LogLine M) (v : GoString) :
    l.Assign fieldRespTime v = l.assignRespTime v := by
  unfold Assign
  rw [if_neg (by decide), if_neg (by decide), if_neg (by decide), if_neg (by decide), if_neg (by decide), if_neg (by decide), if_neg (by decide), if_neg (by decide), if_neg (by decide), if_pos rfl]

theorem assign_UpstreamRespTime (l : LogLine M) (v : GoString) :
    l.Assign fieldUpstreamRespTime v = l.assignUpstreamRespTime v := by
  unfold Assign
  rw [if_neg (by decide), if_neg (by decide), if_neg (by decide), if_neg (by decide), if_neg (by decide), if_neg (by decide), if_neg (by decide), if_neg (by decide), if_neg (by decide), if_neg (by decide), if_pos rfl]

theorem assign_Custom (l : LogLine M) (v : GoString) :
    l.Assign fieldCustom v = ({ l with Custom := v }, none) := by
  unfold Assign
  rw [if_neg (by decide), if_neg (by decide), if_neg (by decide), if_neg (by decide), if_neg (by decide), if_neg (by decide), if_neg (by decide), if_neg (by decide), if_neg (by decide), if_neg (by decide), if_neg (by decide), if_pos rfl]

end LogLine

/-! ## Claims on the record -/

section Claims

variable {M : FloatModel}

/-- C2: after `reset()` every presence predicate returns false, whatever the record
held before: `hasVhost`, `hasClientAddr`, `hasReqHTTPMethod`, `hasReqURI`,
`hasReqHTTPVersion`, `hasRespCodeStatus`, `hasReqSize`, `hasRespSize`, `hasRespTime`,
`hasUpstreamRespTime` and `hasCustom`. -/
theorem C2_reset_clears_presence (l : LogLine M) :
    l.reset.hasVhost = false ∧ l.reset.hasClientAddr = false ∧
    l.reset.hasReqHTTPMethod = false ∧ l.reset.hasReqURI = false ∧
    l.reset.hasReqHTTPVersion = false ∧ l.reset.hasRespCodeStatus = false ∧
    l.reset.hasReqSize = false ∧ l.reset.hasRespSize = false ∧
    l.reset.hasRespTime = false ∧ l.reset.hasUpstreamRespTime = false ∧
    l.reset.hasCustom = false := by
  simp [LogLine.reset, LogLine.hasVhost, LogLine.hasClientAddr, LogLine.hasReqHTTPMethod,
    LogLine.hasReqURI, LogLine.hasReqHTTPVersion, LogLine.hasRespCodeStatus,
    LogLine.hasReqSize, LogLine.hasRespSize, LogLine.hasRespTime,
    LogLine.hasUpstreamRespTime, LogLine.hasCustom, isEmptyString, isEmptyNumber,
    emptyNumber, M.toInt_ofInt_emptyNumber]

/-- C3: `Verify()` returns the missing-mandatory-field error whenever the status is
absent, whatever the other fields hold; it returns the invalid-status error when the
status is present and outside 100..599; so it fails for every status outside
100..599; and when every optional field checked by `Verify` is absent it succeeds
exactly when the status lies in 100..599. -/
theorem C3_verify_status (l : LogLine M) :
    (l.hasRespCodeStatus = false →
      l.Verify = some (.missingMandatoryField fieldRespStatus)) ∧
    (l.hasRespCodeStatus = true → (l.RespCodeStatus < 100 ∨ 599 < l.RespCodeStatus) →
      l.Verify = some (.invalidField fieldRespStatus)) ∧
    ((l.RespCodeStatus < 100 ∨ 599 < l.RespCodeStatus) → l.Verify ≠ none) ∧
    (l.hasVhost = false → l.hasClientAddr = false → l.hasReqHTTPMethod = false →
      l.hasReqURI = false → l.hasReqHTTPVersion = false → l.hasReqSize = false →
      l.hasRespSize = false → l.hasRespTime = false → l.hasUpstreamRespTime = false →
      (l.Verify = none ↔ 100 ≤ l.RespCodeStatus ∧ l.RespCodeStatus ≤ 599)) := by
  refine ⟨?_, ?_, ?_, ?_⟩
  · intro h
    simp [LogLine.Verify, LogLine.verifyMandatoryFields, h]
  · intro h hr
    have hr' : l.RespCodeStatus < 100 ∨ l.RespCodeStatus ≥ 600 := by omega
    simp [LogLine.Verify, LogLine.verifyMandatoryFields, h, hr']
  · intro hr hv
    have := (LogLine.verifyMandatoryFields_eq_none l).1 ((LogLine.verify_eq_none l).1 hv).1
    omega
  · intro h1 h2 h3 h4 h5 h6 h7 h8 h9
    rw [LogLine.verify_eq_none, LogLine.verifyMandatoryFields_eq_none,
      LogLine.verifyOptionalFields_eq_none]
    simp [h1, h2, h3, h4, h5, h6, h7, h8, h9]

/-- Witness of C3 on the freshly reset record: its status is absent, every optional
field is absent, and 600 is outside the range. -/
theorem C3_verify_status_witness :
    emptyLine.Verify = some (.missingMandatoryField fieldRespStatus) ∧
    LogLine.Verify { emptyLine with RespCodeStatus := 600 } =
      some (.invalidField fieldRespStatus) ∧
    LogLine.Verify { emptyLine with RespCodeStatus := 600 } ≠ none ∧
    (LogLine.Verify { emptyLine with RespCodeStatus := 200 } = none ↔
      (100 : Int) ≤ 200 ∧ (200 : Int) ≤ 599) :=
  ⟨(C3_verify_status emptyLine).1 (by decide),
   (C3_verify_status { emptyLine with RespCodeStatus := 600 }).2.1 (by decide) (by decide),
   (C3_verify_status { emptyLine with RespCodeStatus := 600 }).2.2.1 (by decide),
   (C3_verify_status { emptyLine with RespCodeStatus := 200 }).2.2.2 (by decide) (by decide)
     (by decide) (by decide) (by decide) (by decide) (by decide) (by decide) (by decide)⟩

/-- C4, evaluated on the code: with status 200 and every other field absent,
`Verify()` rejects the Vhost `my-host.example.com` with the invalid-vhost error and
accepts the Vhost `a/b`, although the first satisfies the rule
`^[a-zA-Z0-9.:-]+$` and the second does not. -/
theorem C4_vhost_hyphen_rejected :
    LogLine.Verify { emptyLine with RespCodeStatus := 200, Vhost := str "my-host.example.com" }
      = some (.invalidField fieldVhost) ∧
    SpecVhost (str "my-host.example.com") ∧
    LogLine.Verify { emptyLine with RespCodeStatus := 200, Vhost := str "a/b" } = none ∧
    ¬ SpecVhost (str "a/b") := by
  refine ⟨by decide, ?_, by decide, ?_⟩
  · unfold SpecVhost
    decide
  · unfold SpecVhost
    decide

/-- C7: `Assign("req_size", "-")` and `Assign("resp_size", "-")` return no error, set
`ReqSize` (resp. `RespSize`) to 0 and change nothing else, and afterwards
`hasReqSize()` (resp. `hasRespSize()`) is true. -/
theorem C7_size_hyphen_is_zero (l : LogLine M) :
    l.Assign fieldReqSize (str "-") = ({ l with ReqSize := 0 }, none) ∧
    (l.Assign fieldReqSize (str "-")).1.hasReqSize = true ∧
    l.Assign fieldRespSize (str "-") = ({ l with RespSize := 0 }, none) ∧
    (l.Assign fieldRespSize (str "-")).1.hasRespSize = true := by
  have h : str "-" = hyphen := rfl
  rw [h, LogLine.assign_ReqSize, LogLine.assign_RespSize]
  simp [LogLine.assignReqSize, LogLine.assignRespSize, LogLine.hasReqSize,
    LogLine.hasRespSize, isEmptyNumber, emptyNumber]

/-- C8: for `resp_status`, `resp_time` and `upstream_resp_time`, `Assign(f, "-")`
returns no error and leaves the record unchanged; on a freshly reset record the
field therefore stays absent, and after `Assign("resp_status", "-")` on a reset
record `Verify()` fails with the missing-mandatory-field error. -/
theorem C8_hyphen_means_absent (l : LogLine M) :
    l.Assign fieldRespStatus (str "-") = (l, none) ∧
    l.Assign fieldRespTime (str "-") = (l, none) ∧
    l.Assign fieldUpstreamRespTime (str "-") = (l, none) ∧
    (l.reset.Assign fieldRespStatus (str "-")).1.hasRespCodeStatus = false ∧
    (l.reset.Assign fieldRespTime (str "-")).1.hasRespTime = false ∧
    (l.reset.Assign fieldUpstreamRespTime (str "-")).1.hasUpstreamRespTime = false ∧
    (l.reset.Assign fieldRespStatus (str "-")).1.Verify =
      some (.missingMandatoryField fieldRespStatus) := by
  have h : str "-" = hyphen := rfl
  have e1 : ∀ r : LogLine M, r.Assign fieldRespStatus (str "-") = (r, none) := by
    intro r
    rw [h, LogLine.assign_RespStatus]
    simp [LogLine.assignReqCodeStatus]
  have e2 : ∀ r : LogLine M, r.Assign fieldRespTime (str "-") = (r, none) := by
    intro r
    rw [h, LogLine.assign_RespTime]
    simp [LogLine.assignRespTime]
  have e3 : ∀ r : LogLine M, r.Assign fieldUpstreamRespTime (str "-") = (r, none) := by
    intro r
    rw [h, LogLine.assign_UpstreamRespTime]
    simp [LogLine.assignUpstreamRespTime]
  have hs : l.reset.hasRespCodeStatus = false := by
    simp [LogLine.reset, LogLine.hasRespCodeStatus, isEmptyNumber]
  refine ⟨e1 l, e2 l, e3 l, ?_, ?_, ?_, ?_⟩
  · rw [e1]
    exact hs
  · rw [e2]
    simp [LogLine.reset, LogLine.hasRespTime, isEmptyNumber, emptyNumber,
      M.toInt_ofInt_emptyNumber]
  · rw [e3]
    simp [LogLine.reset, LogLine.hasUpstreamRespTime, isEmptyNumber, emptyNumber,
      M.toInt_ofInt_emptyNumber]
  · rw [e1]
    simp [LogLine.Verify, LogLine.verifyMandatoryFields, hs]

/-- C9: `Assign("req_protocol", v)` succeeds exactly when `v` starts with `HTTP/` and
is longer than 5 bytes; on success `ReqHTTPVersion` is `v` without its first five
bytes and no other field changes; otherwise it returns the invalid-protocol error
and the record is unchanged. -/
theorem C9_req_protocol (l : LogLine M) (v : GoString) :
    ((l.Assign fieldReqProtocol v).2 = none ↔
      List.IsPrefix (str "HTTP/") v ∧ 5 < v.length) ∧
    (List.IsPrefix (str "HTTP/") v → 5 < v.length →
      l.Assign fieldReqProtocol v = ({ l with ReqHTTPVersion := v.drop 5 }, none)) ∧
    (¬ (List.IsPrefix (str "HTTP/") v ∧ 5 < v.length) →
      l.Assign fieldReqProtocol v = (l, some (.invalidProtocol v))) := by
  rw [LogLine.assign_ReqProtocol]
  unfold LogLine.assignReqHTTPVersion hasPrefix
  by_cases hp : List.IsPrefix (str "HTTP/") v
  · have hb : (str "HTTP/").isPrefixOf v = true := List.isPrefixOf_iff_prefix.2 hp
    by_cases hl : 5 < v.length
    · have : ¬ v.length ≤ 5 := by omega
      simp [hb, hp, hl, this]
    · have : v.length ≤ 5 := by omega
      simp [hp, hl, this]
  · have hb : (str "HTTP/").isPrefixOf v = false := by
      cases h : (str "HTTP/").isPrefixOf v with
      | false => rfl
      | true => exact absurd (List.isPrefixOf_iff_prefix.1 h) hp
    simp [hb, hp]

/-- Witness of C9 at `HTTP/1.1` (accepted, version `1.1`) and `HTTP/` (rejected). -/
theorem C9_req_protocol_witness :
    emptyLine.Assign fieldReqProtocol (str "HTTP/1.1") =
      ({ emptyLine with ReqHTTPVersion := (str "HTTP/1.1").drop 5 }, none) ∧
    emptyLine.Assign fieldReqProtocol (str "HTTP/") =
      (emptyLine, some (.invalidProtocol (str "HTTP/"))) :=
  ⟨(C9_req_protocol emptyLine (str "HTTP/1.1")).2.1 (by decide) (by decide),
   (C9_req_protocol emptyLine (str "HTTP/")).2.2 (by decide)⟩

/-- The request text `m + " " + u + " HTTP/" + ver`, byte by byte. -/
theorem request_shape (m u ver : GoString) :
    m ++ str " " ++ u ++ str " HTTP/" ++ ver = m ++ 32 :: (u ++ 32 :: (str "HTTP/" ++ ver)) := by
  have h1 : str " " = [32] := by decide
  have h2 : str " HTTP/" = 32 :: str "HTTP/" := by decide
  rw [h1, h2]
  simp

/-- C5: for `v` other than `-`, `Assign("request", v)` succeeds exactly when
`v = m + " " + u + " HTTP/" + ver` with `m` and `u` free of spaces and `ver`
non-empty; for such a `v` it returns no error and sets `ReqHTTPMethod = m`,
`ReqURI = u`, `ReqHTTPVersion = ver`, changing nothing else; when `v` has fewer than
two spaces it fails with the invalid-request error; `Assign("request", "-")`
succeeds and changes no field. -/
theorem C5_request (l : LogLine M) :
    (∀ v, v ≠ str "-" → ((l.Assign fieldRequest v).2 = none ↔
        ∃ m u ver, 32 ∉ m ∧ 32 ∉ u ∧ ver ≠ [] ∧
          v = m ++ str " " ++ u ++ str " HTTP/" ++ ver)) ∧
    (∀ m u ver, 32 ∉ m → 32 ∉ u → ver ≠ [] →
        l.Assign fieldRequest (m ++ str " " ++ u ++ str " HTTP/" ++ ver) =
          ({ l with ReqHTTPMethod := m, ReqURI := u, ReqHTTPVersion := ver }, none)) ∧
    (∀ v, v ≠ str "-" → List.count 32 v < 2 →
        (l.Assign fieldRequest v).2 = some (.invalidRequest v)) ∧
    l.Assign fieldRequest (str "-") = (l, none) := by
  refine ⟨?_, ?_, ?_, ?_⟩
  · intro v hv
    rw [LogLine.assign_Request]
    constructor
    · intro h
      obtain ⟨m, u, ver, h1, h2, h3, h4⟩ := LogLine.assignRequest_ok l v hv h
      exact ⟨m, u, ver, h1, h2, h3, by rw [request_shape]; exact h4⟩
    · rintro ⟨m, u, ver, h1, h2, h3, rfl⟩
      rw [request_shape, LogLine.assignRequest_parts l m u ver h1 h2 h3]
  · intro m u ver h1 h2 h3
    rw [LogLine.assign_Request, request_shape, LogLine.assignRequest_parts l m u ver h1 h2 h3]
  · intro v hv hc
    rw [LogLine.assign_Request]
    exact LogLine.assignRequest_few_spaces l v hv hc
  · rw [LogLine.assign_Request]
    have h : str "-" = hyphen := rfl
    simp [LogLine.assignRequest, h]

/-- Witness of C5 at `GET /api HTTP/1.1` (accepted) and `GET /api` (one space,
rejected). -/
theorem C5_request_witness :
    emptyLine.Assign fieldRequest (str "GET" ++ str " " ++ str "/api" ++ str " HTTP/" ++ str "1.1")
      = ({ emptyLine with
            ReqHTTPMethod := str "GET", ReqURI := str "/api", ReqHTTPVersion := str "1.1" },
          none) ∧
    (emptyLine.Assign fieldRequest (str "GET /api")).2 =
      some (.invalidRequest (str "GET /api")) :=
  ⟨(C5_request emptyLine).2.1 (str "GET") (str "/api") (str "1.1")
      (by decide) (by decide) (by decide),
   (C5_request emptyLine).2.2.1 (str "GET /api") (by decide) (by decide)⟩

/-- C6, as the code has it: for every text `a` without a comma and other than `-`,
and every text `b`, `Assign("upstream_resp_time", a + "," + b)` returns the same
result and the same record as `Assign("upstream_resp_time", a)`. -/
theorem C6_upstream_first_element (l : LogLine M) (a b : GoString)
    (hc : 44 ∉ a) (ha : a ≠ str "-") :
    l.Assign fieldUpstreamRespTime (a ++ str "," ++ b) =
      l.Assign fieldUpstreamRespTime a := by
  have h1 : str "," = [44] := by decide
  have h2 : a ++ [44] ++ b = a ++ 44 :: b := by simp
  have hne : a ++ 44 :: b ≠ hyphen := by
    rw [str_hyphen]
    intro h
    cases a with
    | nil => simp at h
    | cons x xs =>
      have := congrArg List.length h
      simp at this
  rw [LogLine.assign_UpstreamRespTime, LogLine.assign_UpstreamRespTime, h1, h2]
  unfold LogLine.assignUpstreamRespTime
  have ha' : a ≠ hyphen := ha
  rw [if_neg hne, if_neg ha', indexByte_append a b 44 hc, (indexByte_eq_none a 44).2 hc]
  simp only [LogLine.take_length_append_cons]

/-- Witness of C6: `0.034, 0.055` behaves as `0.034`. -/
theorem C6_upstream_first_element_witness :
    emptyLine.Assign fieldUpstreamRespTime (str "0.034" ++ str "," ++ str " 0.055") =
      emptyLine.Assign fieldUpstreamRespTime (str "0.034") :=
  C6_upstream_first_element emptyLine (str "0.034") (str " 0.055") (by decide) (by decide)

/-- Counterexample to C6 as stated: `-` contains no comma, `Assign` of `-` succeeds
and leaves the record as it was, while `Assign` of `-,0.055` fails with the
invalid-upstream-response-time error. -/
theorem C6_counterexample :
    44 ∉ str "-" ∧
    emptyLine.Assign fieldUpstreamRespTime (str "-") = (emptyLine, none) ∧
    emptyLine.Assign fieldUpstreamRespTime (str "-" ++ str "," ++ str "0.055") =
      (emptyLine, some (.invalidUpstreamResponseTime (str "-") .ErrSyntax)) := by
  refine ⟨by decide, ?_, ?_⟩
  · rw [LogLine.assign_UpstreamRespTime]
    rfl
  · rw [LogLine.assign_UpstreamRespTime]
    rfl

/-- C10: for a record with a status in 100..599 whose Vhost and numeric optional
fields are absent, `Verify()` succeeds exactly when each present field among
ClientAddr, ReqMethod, ReqURI and ReqHTTPVersion satisfies its rule: ClientAddr is
`localhost` or a non-empty text over `0-9`, `a-f`, `.` and `:`; ReqMethod is a
non-empty text of `A-Z`; ReqURI starts with `/` and has no whitespace (tab, line
feed, form feed, carriage return, space); ReqHTTPVersion is digits optionally
followed by `.` and digits. -/
theorem C10_verify_text_fields (l : LogLine M)
    (hs : 100 ≤ l.RespCodeStatus ∧ l.RespCodeStatus ≤ 599)
    (hv : l.hasVhost = false) (h1 : l.hasReqSize = false) (h2 : l.hasRespSize = false)
    (h3 : l.hasRespTime = false) (h4 : l.hasUpstreamRespTime = false) :
    l.Verify = none ↔
      (l.hasClientAddr = true → SpecClientAddr l.ClientAddr) ∧
      (l.hasReqHTTPMethod = true → SpecReqMethod l.ReqHTTPMethod) ∧
      (l.hasReqURI = true → SpecReqURI l.ReqURI) ∧
      (l.hasReqHTTPVersion = true → SpecReqHTTPVersion l.ReqHTTPVersion) := by
  rw [LogLine.verify_eq_none, LogLine.verifyMandatoryFields_eq_none,
    LogLine.verifyOptionalFields_eq_none, reClientAddr_iff, reReqHTTPMethod_iff, reURI_iff,
    reReqHTTPVersion_iff]
  simp [hs, hv, h1, h2, h3, h4]

/-- Witness of C10 on `sampleLine`, which `Verify()` accepts. -/
theorem C10_verify_text_fields_witness :
    sampleLine.Verify = none ∧
    ((sampleLine.hasClientAddr = true → SpecClientAddr sampleLine.ClientAddr) ∧
      (sampleLine.hasReqHTTPMethod = true → SpecReqMethod sampleLine.ReqHTTPMethod) ∧
      (sampleLine.hasReqURI = true → SpecReqURI sampleLine.ReqURI) ∧
      (sampleLine.hasReqHTTPVersion = true → SpecReqHTTPVersion sampleLine.ReqHTTPVersion)) :=
  have hok : sampleLine.Verify = none := by decide
  ⟨hok, (C10_verify_text_fields sampleLine ⟨by decide, by decide⟩ (by decide) (by decide)
    (by decide) (by decide) (by decide)).1 hok⟩

/-- C1, as the code has it: when `Assign(f, v)` returns no error and the following
`Verify()` returns no error, then
* the status is present and in 100..599;
* every present field among ClientAddr, ReqMethod, ReqURI and ReqHTTPVersion
  satisfies its rule, every present size is at least 0, and for every present time
  `t` the comparison `t < 0` is false (the Vhost rule is left out here);
* `vhost`, `client_addr`, `req_method`, `req_uri` and `custom` store `v`, `req_protocol`
  stores `v` without its first five bytes, `request` with `v` other than `-` stores
  the three parts of `v`, and each of these text fields is present exactly when the
  text stored differs from `__empty_string__`;
* a size field stores 0 for `-` and the parsed integer otherwise, and is present
  exactly when that number differs from -9999; `resp_status` with `v` other than `-`
  stores the parsed integer;
* a time field with `v` other than `-` stores the parsed number times `timeScale`
  (for `upstream_resp_time` the number parsed from `v` up to its first comma), and is
  present whenever `int(…)` of that value differs from -9999;
* for `request`, `resp_status`, `resp_time` and `upstream_resp_time` with `v = "-"` the
  record is unchanged. -/
theorem C1_assign_then_verify (l : LogLine M) (f v : GoString)
    (hA : (l.Assign f v).2 = none) (hV : (l.Assign f v).1.Verify = none) :
    ((l.Assign f v).1.hasRespCodeStatus = true ∧
      100 ≤ (l.Assign f v).1.RespCodeStatus ∧ (l.Assign f v).1.RespCodeStatus ≤ 599) ∧
    (((l.Assign f v).1.hasClientAddr = true → SpecClientAddr (l.Assign f v).1.ClientAddr) ∧
      ((l.Assign f v).1.hasReqHTTPMethod = true →
        SpecReqMethod (l.Assign f v).1.ReqHTTPMethod) ∧
      ((l.Assign f v).1.hasReqURI = true → SpecReqURI (l.Assign f v).1.ReqURI) ∧
      ((l.Assign f v).1.hasReqHTTPVersion = true →
        SpecReqHTTPVersion (l.Assign f v).1.ReqHTTPVersion) ∧
      ((l.Assign f v).1.hasReqSize = true → 0 ≤ (l.Assign f v).1.ReqSize) ∧
      ((l.Assign f v).1.hasRespSize = true → 0 ≤ (l.Assign f v).1.RespSize) ∧
      ((l.Assign f v).1.hasRespTime = true →
        M.lt (l.Assign f v).1.RespTime (M.ofInt 0) = false) ∧
      ((l.Assign f v).1.hasUpstreamRespTime = true →
        M.lt (l.Assign f v).1.UpstreamRespTime (M.ofInt 0) = false)) ∧
    ((f = fieldVhost → (l.Assign f v).1.Vhost = v ∧
        ((l.Assign f v).1.hasVhost = true ↔ v ≠ emptyString)) ∧
      (f = fieldClientAddr → (l.Assign f v).1.ClientAddr = v ∧
        ((l.Assign f v).1.hasClientAddr = true ↔ v ≠ emptyString)) ∧
      (f = fieldReqMethod → (l.Assign f v).1.ReqHTTPMethod = v ∧
        ((l.Assign f v).1.hasReqHTTPMethod = true ↔ v ≠ emptyString)) ∧
      (f = fieldReqURI → (l.Assign f v).1.ReqURI = v ∧
        ((l.Assign f v).1.hasReqURI = true ↔ v ≠ emptyString)) ∧
      (f = fieldCustom → (l.Assign f v).1.Custom = v ∧
        ((l.Assign f v).1.hasCustom = true ↔ v ≠ emptyString)) ∧
      (f = fieldReqProtocol → (l.Assign f v).1.ReqHTTPVersion = v.drop 5 ∧
        ((l.Assign f v).1.hasReqHTTPVersion = true ↔ v.drop 5 ≠ emptyString)) ∧
      (f = fieldRequest → v ≠ str "-" → ∃ m u ver,
        v = m ++ str " " ++ u ++ str " HTTP/" ++ ver ∧
        (l.Assign f v).1.ReqHTTPMethod = m ∧ (l.Assign f v).1.ReqURI = u ∧
        (l.Assign f v).1.ReqHTTPVersion = ver ∧
        ((l.Assign f v).1.hasReqHTTPMethod = true ↔ m ≠ emptyString) ∧
        ((l.Assign f v).1.hasReqURI = true ↔ u ≠ emptyString) ∧
        ((l.Assign f v).1.hasReqHTTPVersion = true ↔ ver ≠ emptyString))) ∧
    ((f = fieldReqSize →
        (l.Assign f v).1.ReqSize = (if v = str "-" then 0 else (atoi v).1) ∧
        ((l.Assign f v).1.hasReqSize = true ↔
          (if v = str "-" then 0 else (atoi v).1) ≠ emptyNumber)) ∧
      (f = fieldRespSize →
        (l.Assign f v).1.RespSize = (if v = str "-" then 0 else (atoi v).1) ∧
        ((l.Assign f v).1.hasRespSize = true ↔
          (if v = str "-" then 0 else (atoi v).1) ≠ emptyNumber)) ∧
      (f = fieldRespStatus → v ≠ str "-" → (l.Assign f v).1.RespCodeStatus = (atoi v).1)) ∧
    ((f = fieldRespTime → v ≠ str "-" → ∃ x, M.parseFloat v = .ok x ∧
        (l.Assign f v).1.RespTime = M.mul x l.timeScale ∧
        (M.toInt (M.mul x l.timeScale) ≠ emptyNumber →
          (l.Assign f v).1.hasRespTime = true)) ∧
      (f = fieldUpstreamRespTime → v ≠ str "-" → ∃ x,
        M.parseFloat (match indexByte v 44 with
          | some idx => v.take idx
          | none => v) = .ok x ∧
        (l.Assign f v).1.UpstreamRespTime = M.mul x l.timeScale ∧
        (M.toInt (M.mul x l.timeScale) ≠ emptyNumber →
          (l.Assign f v).1.hasUpstreamRespTime = true))) ∧
    ((f = fieldRequest ∨ f = fieldRespStatus ∨ f = fieldRespTime ∨
        f = fieldUpstreamRespTime) → v = str "-" → (l.Assign f v).1 = l) := by
  have hm := (LogLine.verifyMandatoryFields_eq_none _).1 ((LogLine.verify_eq_none _).1 hV).1
  have ho := (LogLine.verifyOptionalFields_eq_none _).1 ((LogLine.verify_eq_none _).1 hV).2
  rw [reClientAddr_iff, reReqHTTPMethod_iff, reURI_iff, reReqHTTPVersion_iff] at ho
  have hd : str "-" = hyphen := rfl
  have hstr : ∀ s : GoString, (!isEmptyString s) = true ↔ s ≠ emptyString := by
    intro s
    simp [isEmptyString]
  have hnum : ∀ n : Int, (!isEmptyNumber n) = true ↔ n ≠ emptyNumber := by
    intro n
    simp [isEmptyNumber]
  refine ⟨⟨?_, hm.1, hm.2⟩, ho.2, ⟨?_, ?_, ?_, ?_, ?_, ?_, ?_⟩, ⟨?_, ?_, ?_⟩, ⟨?_, ?_⟩, ?_⟩
  · simp only [LogLine.hasRespCodeStatus, Bool.not_eq_true', ← Bool.not_eq_true,
      isEmptyNumber_iff]
    omega
  · rintro rfl
    rw [LogLine.assign_Vhost]
    exact ⟨rfl, hstr v⟩
  · rintro rfl
    rw [LogLine.assign_ClientAddr]
    exact ⟨rfl, hstr v⟩
  · rintro rfl
    rw [LogLine.assign_ReqMethod]
    exact ⟨rfl, hstr v⟩
  · rintro rfl
    rw [LogLine.assign_ReqURI]
    exact ⟨rfl, hstr v⟩
  · rintro rfl
    rw [LogLine.assign_Custom]
    exact ⟨rfl, hstr v⟩
  · rintro rfl
    rw [LogLine.assign_ReqProtocol] at hA ⊢
    obtain ⟨ver, hver, rfl⟩ := LogLine.assignReqHTTPVersion_ok l v hA
    rw [LogLine.assignReqHTTPVersion_http l ver hver]
    have h5 : (str "HTTP/" ++ ver).drop 5 = ver := by rw [str_http]; rfl
    rw [h5]
    exact ⟨rfl, hstr ver⟩
  · rintro rfl hv
    rw [LogLine.assign_Request] at hA ⊢
    obtain ⟨m, u, ver, h1, h2, h3, rfl⟩ := LogLine.assignRequest_ok l v hv hA
    rw [LogLine.assignRequest_parts l m u ver h1 h2 h3]
    exact ⟨m, u, ver, (request_shape m u ver).symm, rfl, rfl, rfl, hstr m, hstr u, hstr ver⟩
  · rintro rfl
    rw [LogLine.assign_ReqSize] at hA ⊢
    rw [hd]
    unfold LogLine.assignReqSize at hA ⊢
    by_cases hv : v = hyphen
    · rw [if_pos hv, if_pos hv]
      exact ⟨rfl, hnum 0⟩
    · rw [if_neg hv] at hA ⊢
      rw [if_neg hv]
      rcases hat : atoi v with ⟨n, _ | e⟩
      · exact ⟨rfl, hnum n⟩
      · simp [hat] at hA
  · rintro rfl
    rw [LogLine.assign_RespSize] at hA ⊢
    rw [hd]
    unfold LogLine.assignRespSize at hA ⊢
    by_cases hv : v = hyphen
    · rw [if_pos hv, if_pos hv]
      exact ⟨rfl, hnum 0⟩
    · rw [if_neg hv] at hA ⊢
      rw [if_neg hv]
      rcases hat : atoi v with ⟨n, _ | e⟩
      · exact ⟨rfl, hnum n⟩
      · simp [hat] at hA
  · rintro rfl hv
    have hv' : v ≠ hyphen := hv
    rw [LogLine.assign_RespStatus] at hA ⊢
    unfold LogLine.assignReqCodeStatus at hA ⊢
    rw [if_neg hv'] at hA ⊢
    rcases hat : atoi v with ⟨n, _ | e⟩
    · rfl
    · simp [hat] at hA
  · rintro rfl hv
    rw [LogLine.assign_RespTime] at hA ⊢
    unfold LogLine.assignRespTime at hA ⊢
    have hv' : v ≠ hyphen := hv
    rw [if_neg hv'] at hA ⊢
    cases hp : M.parseFloat v with
    | error e => simp [hp] at hA
    | ok x => exact ⟨x, rfl, rfl, (hnum _).2⟩
  · rintro rfl hv
    rw [LogLine.assign_UpstreamRespTime] at hA ⊢
    unfold LogLine.assignUpstreamRespTime at hA ⊢
    have hv' : v ≠ hyphen := hv
    rw [if_neg hv'] at hA ⊢
    simp only at hA ⊢
    cases hp : M.parseFloat (match indexByte v 44 with
        | some idx => v.take idx
        | none => v) with
    | error e => simp [hp] at hA
    | ok x => exact ⟨x, rfl, rfl, (hnum _).2⟩
  · rintro (rfl | rfl | rfl | rfl) rfl
    · rw [LogLine.assign_Request, hd]
      simp [LogLine.assignRequest]
    · rw [LogLine.assign_RespStatus, hd]
      simp [LogLine.assignReqCodeStatus]
    · rw [LogLine.assign_RespTime, hd]
      simp [LogLine.assignRespTime]
    · rw [LogLine.assign_UpstreamRespTime, hd]
      simp [LogLine.assignUpstreamRespTime]

/-- Witness of C1: `Assign("client_addr", "1.2.3.4")` on the reset record with status
200, followed by a successful `Verify()`: the field is present and satisfies its
rule. -/
theorem C1_assign_then_verify_witness :
    (okLine.Assign fieldClientAddr (str "1.2.3.4")).1.hasClientAddr = true ∧
    SpecClientAddr (okLine.Assign fieldClientAddr (str "1.2.3.4")).1.ClientAddr :=
  have h := C1_assign_then_verify okLine fieldClientAddr (str "1.2.3.4")
    (by decide) (by decide)
  ⟨(h.2.2.1.2.1 rfl).2.2 (by decide), h.2.1.1 ((h.2.2.1.2.1 rfl).2.2 (by decide))⟩

/-- Counterexample to C1 as stated, on the reset record with status 200:
`Assign("request", "-")` and `Assign("resp_time", "-")` return no error and
`Verify()` then succeeds, yet `hasReqHTTPMethod()` and `hasRespTime()` are false;
the same holds for `Assign("vhost", "__empty_string__")` and `hasVhost()`. -/
theorem C1_counterexample :
    ((okLine.Assign fieldRequest (str "-")).2 = none ∧
      (okLine.Assign fieldRequest (str "-")).1.Verify = none ∧
      (okLine.Assign fieldRequest (str "-")).1.hasReqHTTPMethod = false) ∧
    ((okLine.Assign fieldRespTime (str "-")).2 = none ∧
      (okLine.Assign fieldRespTime (str "-")).1.Verify = none ∧
      (okLine.Assign fieldRespTime (str "-")).1.hasRespTime = false) ∧
    ((okLine.Assign fieldVhost (str "__empty_string__")).2 = none ∧
      (okLine.Assign fieldVhost (str "__empty_string__")).1.Verify = none ∧
      (okLine.Assign fieldVhost (str "__empty_string__")).1.hasVhost = false) := by
  decide

end Claims

/-! ## Lemmas on the CSV format -/

namespace Logs

theorem hasKey_iff (m : FieldMap) (name : GoString) :
    m.hasKey name = true ↔ name ∈ m.map Prod.fst := by
  induction m with
  | nil => simp [FieldMap.hasKey]
  | cons e es ih =>
    have : FieldMap.hasKey (e :: es) name = (e.1 == name || FieldMap.hasKey es name) := rfl
    rw [this, Bool.or_eq_true, ih, beq_iff_eq, List.map_cons, List.mem_cons]
    constructor
    · rintro (h | h)
      · exact Or.inl h.symm
      · exact Or.inr h
    · rintro (h | h)
      · exact Or.inl h.symm
      · exact Or.inr h

theorem set_of_not_mem (m : FieldMap) (name : GoString) (idx : Int)
    (h : name ∉ m.map Prod.fst) : m.set name idx = m ++ [(name, idx)] := by
  induction m with
  | nil => rfl
  | cons e es ih =>
    have h1 : ¬ e.1 = name := fun he => h (by simp [he])
    have h2 : name ∉ es.map Prod.fst := fun he => h (by simp only [List.map_cons]; exact List.mem_cons_of_mem _ he)
    simp [FieldMap.set, h1, ih h2]

theorem checked_cons_succ (check : GoString → GoString × Int × Bool) (field : GoString)
    (rest : List GoString) (j : Nat) :
    checked check (field :: rest) (j + 1) = checked check rest j := by
  simp [checked]

theorem offsetThrough_zero (check : GoString → GoString × Int × Bool) (field : GoString)
    (rest : List GoString) :
    offsetThrough check (field :: rest) 0 = (check (trimQuotes field)).2.1 := by
  unfold offsetThrough
  rw [List.range_succ_eq_map 0]
  simp [checked]

theorem offsetThrough_succ (check : GoString → GoString × Int × Bool) (field : GoString)
    (rest : List GoString) (k : Nat) :
    offsetThrough check (field :: rest) (k + 1) =
      (check (trimQuotes field)).2.1 + offsetThrough check rest k := by
  unfold offsetThrough
  rw [List.range_succ_eq_map (k + 1), List.map_cons, List.sum_cons, List.map_map]
  congr 1

theorem wrapInt_of_isInt64 (x : Int) (h : IsInt64 x) : wrapInt x = x := by
  unfold IsInt64 at h
  unfold wrapInt
  omega

theorem isInt64_wrapInt (x : Int) : IsInt64 (wrapInt x) := by
  unfold IsInt64 wrapInt
  omega

theorem wrapInt_add_wrapInt (a b c : Int) :
    wrapInt (a + (wrapInt b + c)) = wrapInt (a + (b + c)) := by
  unfold wrapInt
  omega

theorem goAdd_of_isInt64 (a b : Int) (ha : IsInt64 a) (hb : IsInt64 b) :
    goAdd a b = wrapInt (a + b) := by
  unfold goAdd
  rw [if_pos ⟨ha, hb⟩]

theorem goAdd_zero (a : Int) : goAdd a 0 = a := by
  unfold goAdd
  by_cases h : IsInt64 a ∧ IsInt64 0
  · rw [if_pos h, Int.add_zero, wrapInt_of_isInt64 a h.1]
  · rw [if_neg h, Int.add_zero]

theorem isInt64_natCast (n : Nat) (h : (n : Int) < (2 : Int) ^ 63) : IsInt64 (n : Int) := by
  unfold IsInt64
  omega

theorem mem_acceptedFrom (check : GoString → GoString × Int × Bool) (fields : List GoString)
    (i : Nat) (off : Int) (e : GoString × Int)
    (hc : ∀ t, IsInt64 (check t).2.1) (hoff : IsInt64 off)
    (hlen : ((i + fields.length : Nat) : Int) ≤ (2 : Int) ^ 63) :
    e ∈ acceptedFrom check i off fields ↔
      ∃ k, k < fields.length ∧ (checked check fields k).2.2 = true ∧
        e = ((checked check fields k).1,
              wrapInt (((i + k : Nat) : Int) + (off + offsetThrough check fields k))) := by
  induction fields generalizing i off with
  | nil => simp [acceptedFrom]
  | cons field rest ih =>
    have hr := hc (trimQuotes field)
    have hoff' : IsInt64 (goAdd off (check (trimQuotes field)).2.1) := by
      rw [goAdd_of_isInt64 _ _ hoff hr]
      exact isInt64_wrapInt _
    have hi : IsInt64 (i : Int) := by
      apply isInt64_natCast
      simp only [List.length_cons] at hlen
      push_cast at hlen
      omega
    have hlen' : ((i + 1 + rest.length : Nat) : Int) ≤ (2 : Int) ^ 63 := by
      simp only [List.length_cons] at hlen
      push_cast at hlen ⊢
      omega
    have hhead : goAdd (i : Int) (goAdd off (check (trimQuotes field)).2.1) =
        wrapInt (((i + 0 : Nat) : Int) + (off + offsetThrough check (field :: rest) 0)) := by
      rw [goAdd_of_isInt64 _ _ hi hoff', goAdd_of_isInt64 _ _ hoff hr, offsetThrough_zero]
      have := wrapInt_add_wrapInt (i : Int) (off + (check (trimQuotes field)).2.1) 0
      simp only [Int.add_zero] at this
      simpa using this
    have htail : ∀ k, wrapInt (((i + 1 + k : Nat) : Int) +
          (goAdd off (check (trimQuotes field)).2.1 + offsetThrough check rest k)) =
        wrapInt (((i + (k + 1) : Nat) : Int) +
          (off + offsetThrough check (field :: rest) (k + 1))) := by
      intro k
      have e1 := wrapInt_add_wrapInt ((i + 1 + k : Nat) : Int)
        (off + (check (trimQuotes field)).2.1) (offsetThrough check rest k)
      have e2 : ((i + 1 + k : Nat) : Int) +
          (off + (check (trimQuotes field)).2.1 + offsetThrough check rest k) =
          ((i + (k + 1) : Nat) : Int) +
            (off + ((check (trimQuotes field)).2.1 + offsetThrough check rest k)) := by
        push_cast
        omega
      rw [goAdd_of_isInt64 _ _ hoff hr, offsetThrough_succ, e1, e2]
    have hrest : e ∈ acceptedFrom check (i + 1) (goAdd off (check (trimQuotes field)).2.1) rest ↔
        ∃ k, k + 1 < (field :: rest).length ∧ (checked check (field :: rest) (k + 1)).2.2 = true ∧
          e = ((checked check (field :: rest) (k + 1)).1,
                wrapInt (((i + (k + 1) : Nat) : Int) +
                  (off + offsetThrough check (field :: rest) (k + 1)))) := by
      rw [ih (i + 1) _ hoff' hlen']
      constructor
      · rintro ⟨k, hk, hv, he⟩
        refine ⟨k, by simpa using hk, by rw [checked_cons_succ]; exact hv, ?_⟩
        rw [he, checked_cons_succ, htail]
      · rintro ⟨k, hk, hv, he⟩
        rw [checked_cons_succ] at hv
        refine ⟨k, by simpa using hk, hv, ?_⟩
        rw [he, checked_cons_succ, htail]
    have hzero : checked check (field :: rest) 0 = check (trimQuotes field) := by
      simp [checked]
    constructor
    · intro he
      unfold acceptedFrom at he
      by_cases hv : (check (trimQuotes field)).2.2 = true
      · simp only [hv, if_true, List.mem_cons] at he
        rcases he with he | he
        · refine ⟨0, by simp, by rw [hzero]; exact hv, ?_⟩
          rw [he, hzero, hhead]
        · obtain ⟨k, hk, hv', he'⟩ := hrest.1 he
          exact ⟨k + 1, hk, hv', he'⟩
      · simp only [hv, if_false, Bool.false_eq_true] at he
        obtain ⟨k, hk, hv', he'⟩ := hrest.1 he
        exact ⟨k + 1, hk, hv', he'⟩
    · rintro ⟨k, hk, hv, he⟩
      unfold acceptedFrom
      cases k with
      | zero =>
        rw [hzero] at hv he
        simp only [hv, if_true, List.mem_cons]
        left
        rw [he, hhead]
      | succ k =>
        have := hrest.2 ⟨k, hk, hv, he⟩
        by_cases hv0 : (check (trimQuotes field)).2.2 = true
        · simp only [hv0, if_true, List.mem_cons]
          exact Or.inr this
        · simp only [hv0, if_false, Bool.false_eq_true]
          exact this

theorem mem_acceptedFrom_zero (check : GoString → GoString × Int × Bool)
    (fields : List GoString) (i : Nat) (e : GoString × Int)
    (hz : ∀ t, (check t).2.1 = 0) :
    e ∈ acceptedFrom check i 0 fields ↔
      ∃ k, k < fields.length ∧ (checked check fields k).2.2 = true ∧
        e = ((checked check fields k).1, ((i + k : Nat) : Int)) := by
  induction fields generalizing i with
  | nil => simp [acceptedFrom]
  | cons field rest ih =>
    have hoff : goAdd 0 (check (trimQuotes field)).2.1 = 0 := by
      rw [hz, goAdd_zero]
    have hzero : checked check (field :: rest) 0 = check (trimQuotes field) := by
      simp [checked]
    have hrest : e ∈ acceptedFrom check (i + 1) 0 rest ↔
        ∃ k, k + 1 < (field :: rest).length ∧ (checked check (field :: rest) (k + 1)).2.2 = true ∧
          e = ((checked check (field :: rest) (k + 1)).1, ((i + (k + 1) : Nat) : Int)) := by
      rw [ih (i + 1)]
      constructor
      · rintro ⟨k, hk, hv, he⟩
        refine ⟨k, by simpa using hk, by rw [checked_cons_succ]; exact hv, ?_⟩
        rw [he, checked_cons_succ]
        congr 2
        omega
      · rintro ⟨k, hk, hv, he⟩
        rw [checked_cons_succ] at hv
        refine ⟨k, by simpa using hk, hv, ?_⟩
        rw [he, checked_cons_succ]
        congr 2
        omega
    unfold acceptedFrom
    simp only [hoff, goAdd_zero]
    constructor
    · intro he
      by_cases hv : (check (trimQuotes field)).2.2 = true
      · simp only [hv, if_true, List.mem_cons] at he
        rcases he with he | he
        · refine ⟨0, by simp, by rw [hzero]; exact hv, ?_⟩
          rw [he, hzero]
          rfl
        · obtain ⟨k, hk, hv', he'⟩ := hrest.1 he
          exact ⟨k + 1, hk, hv', he'⟩
      · simp only [hv, if_false, Bool.false_eq_true] at he
        obtain ⟨k, hk, hv', he'⟩ := hrest.1 he
        exact ⟨k + 1, hk, hv', he'⟩
    · rintro ⟨k, hk, hv, he⟩
      cases k with
      | zero =>
        rw [hzero] at hv he
        simp only [hv, if_true, List.mem_cons]
        left
        rw [he]
        rfl
      | succ k =>
        have := hrest.2 ⟨k, hk, hv, he⟩
        by_cases hv0 : (check (trimQuotes field)).2.2 = true
        · simp only [hv0, if_true, List.mem_cons]
          exact Or.inr this
        · simp only [hv0, if_false, Bool.false_eq_true]
          exact this

theorem acceptedFrom_names (check : GoString → GoString × Int × Bool) (fields : List GoString)
    (i : Nat) (off : Int) :
    (acceptedFrom check i off fields).map Prod.fst = acceptedNames check fields := by
  induction fields generalizing i off with
  | nil => rfl
  | cons field rest ih =>
    unfold acceptedFrom
    by_cases hv : (check (trimQuotes field)).2.2 = true
    · simp only [hv, if_true, List.map_cons, ih]
      simp [acceptedNames, hv]
    · simp only [hv, if_false, Bool.false_eq_true, ih]
      simp [acceptedNames, hv]

theorem formatLoop_ok (check : GoString → GoString × Int × Bool) (fields : List GoString)
    (i : Nat) (vars out : FormatVars) (h : formatLoop check i fields vars = .ok out) :
    out.fieldIndexes = vars.fieldIndexes ++ acceptedFrom check i vars.offset fields ∧
    vars.max ≤ out.max ∧
    (∀ e ∈ acceptedFrom check i vars.offset fields, e.2 ≤ out.max) ∧
    (out.max = vars.max ∨ ∃ e ∈ acceptedFrom check i vars.offset fields, e.2 = out.max) ∧
    (∀ n ∈ (acceptedFrom check i vars.offset fields).map Prod.fst,
      n ∉ vars.fieldIndexes.map Prod.fst) ∧
    ((acceptedFrom check i vars.offset fields).map Prod.fst).Nodup := by
  induction fields generalizing i vars with
  | nil =>
    simp only [formatLoop, Except.ok.injEq] at h
    subst h
    simp [acceptedFrom]
  | cons field rest ih =>
    unfold formatLoop at h
    unfold acceptedFrom
    by_cases hv : (check (trimQuotes field)).2.2 = true
    · simp only [hv, Bool.not_true, Bool.false_eq_true, if_false, if_true] at h ⊢
      by_cases hk : vars.fieldIndexes.hasKey (check (trimQuotes field)).1 = true
      · simp [hk] at h
      · simp only [hk, Bool.false_eq_true, if_false] at h
        have hnm : (check (trimQuotes field)).1 ∉ vars.fieldIndexes.map Prod.fst :=
          fun hm => hk ((hasKey_iff _ _).2 hm)
        obtain ⟨h1, h2, h3, h4, h5, h6⟩ := ih _ _ h
        simp only [set_of_not_mem _ _ _ hnm] at h1 h2 h3 h4 h5 h6
        refine ⟨by rw [h1]; simp, ?_, ?_, ?_, ?_, ?_⟩
        · split at h2 <;> omega
        · intro e he
          rcases List.mem_cons.1 he with rfl | he
          · simp only
            split at h2 <;> omega
          · exact h3 e he
        · rcases h4 with h4 | ⟨e, he, h4⟩
          · by_cases hlt : vars.max <
                goAdd (i : Int) (goAdd vars.offset (check (trimQuotes field)).2.1)
            · right
              simp only [hlt, if_true] at h4
              refine ⟨((check (trimQuotes field)).1,
                goAdd (i : Int) (goAdd vars.offset (check (trimQuotes field)).2.1)),
                List.mem_cons_self _ _, ?_⟩
              simp only
              rw [h4]
            · left
              simp only [hlt, if_false] at h4
              exact h4
          · exact Or.inr ⟨e, List.mem_cons_of_mem _ he, h4⟩
        · intro n hn
          simp only [List.map_cons, List.mem_cons] at hn
          rcases hn with rfl | hn
          · exact hnm
          · intro hm
            exact h5 n hn (by simp [hm])
        · simp only [List.map_cons, List.nodup_cons]
          refine ⟨fun hm => h5 _ hm (by simp), h6⟩
    · simp only [hv, Bool.not_false, if_true, Bool.false_eq_true, if_false] at h ⊢
      exact ih _ _ h

theorem formatLoop_of_nodup (check : GoString → GoString × Int × Bool)
    (fields : List GoString) (i : Nat) (vars : FormatVars)
    (h1 : ∀ n ∈ (acceptedFrom check i vars.offset fields).map Prod.fst,
      n ∉ vars.fieldIndexes.map Prod.fst)
    (h2 : ((acceptedFrom check i vars.offset fields).map Prod.fst).Nodup) :
    ∃ out, formatLoop check i fields vars = .ok out := by
  induction fields generalizing i vars with
  | nil => exact ⟨vars, rfl⟩
  | cons field rest ih =>
    unfold formatLoop
    unfold acceptedFrom at h1 h2
    by_cases hv : (check (trimQuotes field)).2.2 = true
    · simp only [hv, if_true, List.map_cons, List.mem_cons, List.nodup_cons] at h1 h2
      have hnm : (check (trimQuotes field)).1 ∉ vars.fieldIndexes.map Prod.fst :=
        h1 _ (Or.inl rfl)
      have hk : ¬ vars.fieldIndexes.hasKey (check (trimQuotes field)).1 = true :=
        fun hk => hnm ((hasKey_iff _ _).1 hk)
      simp only [hv, Bool.not_true, Bool.false_eq_true, if_false, hk]
      apply ih
      · intro n hn
        simp only [set_of_not_mem _ _ _ hnm, List.map_append, List.map_cons, List.map_nil,
          List.mem_append, List.mem_singleton, not_or]
        refine ⟨h1 n (Or.inr hn), ?_⟩
        rintro rfl
        exact h2.1 hn
      · exact h2.2
    · simp only [hv, if_false, Bool.false_eq_true] at h1 h2
      simp only [hv, Bool.not_false, if_true]
      exact ih _ _ h1 h2

theorem formatLoop_error (check : GoString → GoString × Int × Bool) (fields : List GoString)
    (i : Nat) (vars : FormatVars) (err : FormatError)
    (h : formatLoop check i fields vars = .error err) : ∃ name, err = .duplicateField name := by
  induction fields generalizing i vars with
  | nil => simp [formatLoop] at h
  | cons field rest ih =>
    unfold formatLoop at h
    by_cases hv : (check (trimQuotes field)).2.2 = true
    · simp only [hv, Bool.not_true, Bool.false_eq_true, if_false] at h
      by_cases hk : vars.fieldIndexes.hasKey (check (trimQuotes field)).1 = true
      · simp only [hk, if_true, Except.error.injEq] at h
        exact ⟨_, h.symm⟩
      · simp only [hk, Bool.false_eq_true, if_false] at h
        exact ih _ _ h
    · simp only [hv, Bool.not_false, if_true] at h
      exact ih _ _ h

end Logs

namespace Logs

theorem newCSVFormat_ok (csvRead : Nat → Bool → GoString → Except GoError (List GoString))
    (config : CSVConfig) (fields : List GoString) (f : csvFormat)
    (hr : csvRead config.Delimiter config.TrimLeadingSpace config.Format = .ok fields)
    (h : newCSVFormat csvRead config = .ok f) :
    f.fieldIndexes = acceptedFrom config.check 0 0 fields ∧
    0 ≤ f.maxIndex ∧
    (∀ e ∈ f.fieldIndexes, e.2 ≤ f.maxIndex) ∧
    (f.maxIndex = 0 ∨ ∃ e ∈ f.fieldIndexes, e.2 = f.maxIndex) ∧
    (f.fieldIndexes.map Prod.fst).Nodup := by
  unfold newCSVFormat at h
  rw [hr] at h
  simp only at h
  cases hl : formatLoop config.check 0 fields { fieldIndexes := [], max := 0, offset := 0 } with
  | error err => simp [hl] at h
  | ok vars =>
    simp only [hl, Except.ok.injEq] at h
    subst h
    obtain ⟨h1, h2, h3, h4, _, h6⟩ := formatLoop_ok _ _ _ _ _ hl
    simp only [List.nil_append] at h1
    simp only
    rw [h1]
    exact ⟨rfl, h2, h3, h4, h6⟩

theorem newCSVFormat_read (csvRead : Nat → Bool → GoString → Except GoError (List GoString))
    (config : CSVConfig) (f : csvFormat) (h : newCSVFormat csvRead config = .ok f) :
    ∃ fields, csvRead config.Delimiter config.TrimLeadingSpace config.Format = .ok fields := by
  unfold newCSVFormat at h
  cases hr : csvRead config.Delimiter config.TrimLeadingSpace config.Format with
  | error err => simp [hr] at h
  | ok fields => exact ⟨fields, rfl⟩

theorem newCSVFormat_of_nodup
    (csvRead : Nat → Bool → GoString → Except GoError (List GoString))
    (config : CSVConfig) (fields : List GoString)
    (hr : csvRead config.Delimiter config.TrimLeadingSpace config.Format = .ok fields)
    (hn : (acceptedNames config.check fields).Nodup) :
    ∃ f, newCSVFormat csvRead config = .ok f := by
  obtain ⟨out, hout⟩ := formatLoop_of_nodup config.check fields 0
    { fieldIndexes := [], max := 0, offset := 0 } (by simp)
    (by rw [acceptedFrom_names]; exact hn)
  unfold newCSVFormat
  rw [hr]
  simp only [hout]
  exact ⟨_, rfl⟩

theorem assignAll_in_bounds {σ E : Type} (assign : σ → GoString → GoString → σ × Option E)
    (record : List GoString) (m : FieldMap) (line : σ)
    (h : ∀ e ∈ m, 0 ≤ e.2 ∧ e.2 < (record.length : Int)) :
    (assignAll assign record m line).2 ≠ .indexOutOfRange := by
  induction m generalizing line with
  | nil => simp [assignAll]
  | cons e es ih =>
    obtain ⟨field, idx⟩ := e
    have hb := h (field, idx) (List.mem_cons_self _ _)
    have hnot : ¬ (idx < 0 ∨ (record.length : Int) ≤ idx) := by
      simp only at hb
      omega
    unfold assignAll
    rw [if_neg hnot]
    rcases ha : assign line field (record.getD idx.toNat []) with ⟨line', _ | err⟩
    · simp only
      exact ih line' fun e he => h e (List.mem_cons_of_mem _ he)
    · simp

theorem errorsIs_iff (err target : GoError) : errorsIs err target = true ↔ IsOrWraps err target := by
  induction err with
  | wrap info inner ih =>
    unfold errorsIs
    rw [Bool.or_eq_true, beq_iff_eq, ih]
    constructor
    · rintro (h | h)
      · rw [h]
        exact IsOrWraps.self _
      · exact IsOrWraps.wrap _ _ _ h
    · intro h
      cases h with
      | self => exact Or.inl rfl
      | wrap _ _ _ h => exact Or.inr h
  | ErrBareQuote | ErrFieldCount | ErrQuote | EOF | other =>
    unfold errorsIs
    rw [beq_iff_eq]
    constructor
    · intro h
      rw [h]
      exact IsOrWraps.self _
    · intro h
      cases h
      rfl

end Logs

namespace Logs

theorem str_dollar : str "$" = [36] := by decide

theorem checkCSVFormatField_eq (name : GoString) :
    checkCSVFormatField name =
      if 2 ≤ name.length ∧ name.head? = some 36 then (name, 0, true) else ([], 0, false) := by
  unfold checkCSVFormatField Weblog.hasPrefix
  rw [str_dollar]
  cases name with
  | nil => simp
  | cons c cs =>
    by_cases hc : c = 36
    · subst hc
      by_cases hl : (36 :: cs).length < 2
      · have h2 : ¬ 2 ≤ (36 :: cs).length := by omega
        rw [if_pos (Or.inl hl), if_neg (fun h => h2 h.1)]
      · have h2 : 2 ≤ (36 :: cs).length := by omega
        have hp : ¬ ((36 :: cs).length < 2 ∨ (!List.isPrefixOf [36] (36 :: cs)) = true) := by
          simp only [List.isPrefixOf, beq_self_eq_true, Bool.true_and, Bool.not_true,
            Bool.false_eq_true, or_false]
          exact hl
        rw [if_neg hp, if_pos ⟨h2, rfl⟩]
    · have h36 : ¬ (36 = c) := fun h => hc h.symm
      have hp : (c :: cs).length < 2 ∨ (!List.isPrefixOf [36] (c :: cs)) = true := by
        right
        simp [List.isPrefixOf, h36]
      have hh : ¬ (2 ≤ (c :: cs).length ∧ (c :: cs).head? = some 36) := by
        simp [hc]
      rw [if_pos hp, if_neg hh]

theorem checkCSVFormatField_valid (name : GoString) :
    (checkCSVFormatField name).2.2 = true ↔ 2 ≤ name.length ∧ name.head? = some 36 := by
  rw [checkCSVFormatField_eq]
  by_cases h : 2 ≤ name.length ∧ name.head? = some 36
  · simp [h]
  · rw [if_neg h]
    simp [h]

theorem checkCSVFormatField_offset (name : GoString) : (checkCSVFormatField name).2.1 = 0 := by
  rw [checkCSVFormatField_eq]
  split <;> rfl

theorem checkCSVFormatField_name (name : GoString)
    (h : (checkCSVFormatField name).2.2 = true) : checkCSVFormatField name = (name, 0, true) := by
  have := (checkCSVFormatField_valid name).1 h
  rw [checkCSVFormatField_eq, if_pos this]

theorem offsetThrough_default (fields : List GoString) (k : Nat) :
    offsetThrough checkCSVFormatField fields k = 0 := by
  unfold offsetThrough
  apply List.sum_eq_zero
  intro x hx
  obtain ⟨j, _, rfl⟩ := List.mem_map.1 hx
  exact checkCSVFormatField_offset _

theorem check_of_none (config : CSVConfig) (h : config.CheckField = none) :
    config.check = checkCSVFormatField := by
  unfold CSVConfig.check
  rw [h]

end Logs

/-! ## Claims on the CSV parser -/

section CSVClaims

open Logs

/-- C11: for every CSV format and every record with at most `maxIndex` columns,
`csvFormat.parse` returns the `*ParseError` with the message
`csv parse: unmatched line`, whatever the `Assign` of the destination is, and hands
the destination back unchanged. -/
theorem C11_unmatched_line {σ E : Type} (f : csvFormat)
    (assign : σ → GoString → GoString → σ × Option E) (record : List GoString) (line : σ)
    (h : (record.length : Int) ≤ f.maxIndex) :
    f.parse assign record line = (line, .returned (some .unmatchedLine)) ∧
    (LogsError.unmatchedLine : LogsError E).isParseError = true := by
  unfold csvFormat.parse
  rw [if_pos h]
  exact ⟨rfl, rfl⟩

/-- Witness of C11: the format with columns 0 and 3 on a record of three columns. -/
theorem C11_unmatched_line_witness :
    wideFormat.parse weblogAssign [str "1", str "2", str "3"] emptyLine =
      (emptyLine, .returned (some .unmatchedLine)) :=
  (C11_unmatched_line wideFormat weblogAssign [str "1", str "2", str "3"] emptyLine
    (by decide)).1

/-- C12, as the code has it: when `newCSVFormat` succeeds, `maxIndex` is the larger
of 0 and the highest column assigned: no assigned column exceeds it, it is never
negative, it is the highest assigned column as soon as some assigned column is not
negative, and it is 0 when every assigned column is negative. -/
theorem C12_max_index (csvRead : Nat → Bool → GoString → Except GoError (List GoString))
    (config : CSVConfig) (f : csvFormat) (h : newCSVFormat csvRead config = .ok f) :
    (∀ e ∈ f.fieldIndexes, e.2 ≤ f.maxIndex) ∧
    0 ≤ f.maxIndex ∧
    ((∃ e ∈ f.fieldIndexes, 0 ≤ e.2) → ∃ e ∈ f.fieldIndexes, e.2 = f.maxIndex) ∧
    ((∀ e ∈ f.fieldIndexes, e.2 < 0) → f.maxIndex = 0) := by
  obtain ⟨fields, hr⟩ := newCSVFormat_read csvRead config f h
  obtain ⟨_, h2, h3, h4, _⟩ := newCSVFormat_ok csvRead config fields f hr h
  refine ⟨h3, h2, ?_, ?_⟩
  · rintro ⟨e, he, hpos⟩
    rcases h4 with h0 | h4
    · have := h3 e he
      exact ⟨e, he, by omega⟩
    · exact h4
  · intro hneg
    rcases h4 with h0 | ⟨e, he, h4⟩
    · exact h0
    · have := hneg e he
      omega

/-- Witness of C12: the format `$a $t $b` with `wideCheck` records the columns 0
and 3, and `maxIndex` is 3. -/
theorem C12_max_index_witness :
    newCSVFormat plainRead wideConfig = .ok wideFormat ∧
    ∃ e ∈ wideFormat.fieldIndexes, e.2 = wideFormat.maxIndex :=
  have h : newCSVFormat plainRead wideConfig = .ok wideFormat := by decide
  ⟨h, (C12_max_index plainRead wideConfig wideFormat h).2.2.1 ⟨(str "$a", 0), by decide, by decide⟩⟩

/-- Counterexample to C12 as stated: with a field check that returns the adjustment
-1, the format `$a` is accepted, its only column is -1, and `maxIndex` is 0. -/
theorem C12_counterexample :
    newCSVFormat plainRead shiftLeftConfig =
      .ok { raw := str "$a", maxIndex := 0, fieldIndexes := [(str "$a", -1)] } := by
  decide

/-- C13: for a format that tokenises as one record, `newCSVFormat` fails with the
duplicate-field error exactly when the names of the accepted tokens are not pairwise
distinct; otherwise it succeeds and `fieldIndexes` has exactly one entry per
accepted token, under the token's normalised name and in no case under a rejected
one; it never fails in another way. -/
theorem C13_duplicate_field (csvRead : Nat → Bool → GoString → Except GoError (List GoString))
    (config : CSVConfig) (fields : List GoString)
    (hr : csvRead config.Delimiter config.TrimLeadingSpace config.Format = .ok fields) :
    ((∃ name, newCSVFormat csvRead config = .error (.duplicateField name)) ↔
      ¬ (acceptedNames config.check fields).Nodup) ∧
    ((acceptedNames config.check fields).Nodup →
      ∃ f, newCSVFormat csvRead config = .ok f ∧
        f.fieldIndexes.map Prod.fst = acceptedNames config.check fields) ∧
    (∀ err, newCSVFormat csvRead config = .error err → ∃ name, err = .duplicateField name) := by
  have hok : (acceptedNames config.check fields).Nodup →
      ∃ f, newCSVFormat csvRead config = .ok f ∧
        f.fieldIndexes.map Prod.fst = acceptedNames config.check fields := by
    intro hn
    obtain ⟨f, hf⟩ := newCSVFormat_of_nodup csvRead config fields hr hn
    refine ⟨f, hf, ?_⟩
    rw [(newCSVFormat_ok csvRead config fields f hr hf).1, acceptedFrom_names]
  have herr : ∀ err, newCSVFormat csvRead config = .error err →
      ∃ name, err = .duplicateField name := by
    intro err h
    unfold newCSVFormat at h
    rw [hr] at h
    simp only at h
    cases hl : formatLoop config.check 0 fields { fieldIndexes := [], max := 0, offset := 0 } with
    | error e =>
      simp only [hl, Except.error.injEq] at h
      subst h
      exact formatLoop_error _ _ _ _ _ hl
    | ok vars => simp [hl] at h
  refine ⟨⟨?_, ?_⟩, hok, herr⟩
  · rintro ⟨name, h⟩ hn
    obtain ⟨f, hf, _⟩ := hok hn
    rw [hf] at h
    cases h
  · intro hn
    cases h : newCSVFormat csvRead config with
    | error err =>
      obtain ⟨name, rfl⟩ := herr err h
      exact ⟨name, rfl⟩
    | ok f =>
      exfalso
      apply hn
      have := (newCSVFormat_ok csvRead config fields f hr h)
      rw [← acceptedFrom_names config.check fields 0 0, ← this.1]
      exact this.2.2.2.2

/-- Witness of C13: `$a x $a` fails with the duplicate-field error, `$a x $b`
succeeds with the two entries `$a` and `$b`. -/
theorem C13_duplicate_field_witness :
    (∃ name, newCSVFormat plainRead twiceConfig = .error (.duplicateField name)) ∧
    ∃ f, newCSVFormat plainRead plainConfig = .ok f ∧
      f.fieldIndexes.map Prod.fst = acceptedNames plainConfig.check [str "$a", str "x", str "$b"] :=
  ⟨(C13_duplicate_field plainRead twiceConfig [str "$a", str "x", str "$a"] (by decide)).1.2
      (by decide),
   (C13_duplicate_field plainRead plainConfig [str "$a", str "x", str "$b"] (by decide)).2.1
      (by decide)⟩

/-- C14: the default field check accepts a token exactly when it has at least two
bytes and starts with `$`, and then returns the token itself with offset 0;
consequently, with no `CheckField` configured and the accepted tokens pairwise
distinct, `newCSVFormat` succeeds and `fieldIndexes` holds the pair (name, column)
exactly when some token number `i`, stripped of its surrounding double-quotes, is
`name`, is accepted, and `column = i`. -/
theorem C14_default_check (csvRead : Nat → Bool → GoString → Except GoError (List GoString))
    (config : CSVConfig) (fields : List GoString) :
    (∀ name, ((checkCSVFormatField name).2.2 = true ↔
        2 ≤ name.length ∧ name.head? = some 36) ∧
      ((checkCSVFormatField name).2.2 = true → checkCSVFormatField name = (name, 0, true))) ∧
    (config.CheckField = none →
      csvRead config.Delimiter config.TrimLeadingSpace config.Format = .ok fields →
      (acceptedNames checkCSVFormatField fields).Nodup →
      ∃ f, newCSVFormat csvRead config = .ok f ∧
        ∀ name column, (name, column) ∈ f.fieldIndexes ↔
          ∃ i : Nat, i < fields.length ∧ trimQuotes (fields.getD i []) = name ∧
            2 ≤ name.length ∧ name.head? = some 36 ∧ column = (i : Int)) := by
  refine ⟨fun name => ⟨checkCSVFormatField_valid name, checkCSVFormatField_name name⟩, ?_⟩
  intro hc hr hn
  have hcheck := check_of_none config hc
  obtain ⟨f, hf⟩ := newCSVFormat_of_nodup csvRead config fields hr (by rw [hcheck]; exact hn)
  refine ⟨f, hf, ?_⟩
  intro name column
  rw [(newCSVFormat_ok csvRead config fields f hr hf).1, hcheck,
    mem_acceptedFrom_zero _ _ _ _ checkCSVFormatField_offset]
  constructor
  · rintro ⟨k, hk, hv, he⟩
    have hnm := checkCSVFormatField_name _ hv
    unfold checked at hv hnm he
    rw [hnm] at he
    simp only [Prod.mk.injEq] at he
    obtain ⟨h1, h2⟩ := he
    have hv' := (checkCSVFormatField_valid _).1 hv
    rw [← h1] at hv'
    refine ⟨k, hk, h1.symm, hv'.1, hv'.2, ?_⟩
    rw [h2]
    push_cast
    omega
  · rintro ⟨i, hi, rfl, h2, h3, rfl⟩
    have hv : (checked checkCSVFormatField fields i).2.2 = true :=
      (checkCSVFormatField_valid _).2 ⟨h2, h3⟩
    refine ⟨i, hi, hv, ?_⟩
    unfold checked at hv ⊢
    rw [checkCSVFormatField_name _ hv]
    simp

/-- Witness of C14: the format `$a x $b` without a field check maps `$a` to column 0
and `$b` to column 2, and nothing else. -/
theorem C14_default_check_witness :
    ∃ f, newCSVFormat plainRead plainConfig = .ok f ∧
      ∀ name column, (name, column) ∈ f.fieldIndexes ↔
        ∃ i : Nat, i < [str "$a", str "x", str "$b"].length ∧
          trimQuotes ([str "$a", str "x", str "$b"].getD i []) = name ∧
          2 ≤ name.length ∧ name.head? = some 36 ∧ column = (i : Int) :=
  (C14_default_check plainRead plainConfig [str "$a", str "x", str "$b"]).2
    rfl (by decide) (by decide)

/-- C15: `handleCSVReadError` returns a `*ParseError` wrapping the read error
exactly when that error is, or wraps, the bare-quote, field-count or quote error of
`encoding/csv`; every other error, `io.EOF` included, is returned unchanged; and
`ReadLine` hands a failed read to `handleCSVReadError` without touching the
destination. -/
theorem C15_read_error {σ E : Type} (err : GoError) (format : csvFormat)
    (assign : σ → GoString → GoString → σ × Option E) (line : σ) :
    ((handleCSVReadError err : LogsError E) = .readFailed err ↔
      IsOrWraps err .ErrBareQuote ∨ IsOrWraps err .ErrFieldCount ∨ IsOrWraps err .ErrQuote) ∧
    (¬ (IsOrWraps err .ErrBareQuote ∨ IsOrWraps err .ErrFieldCount ∨ IsOrWraps err .ErrQuote) →
      (handleCSVReadError err : LogsError E) = .unchanged err) ∧
    (handleCSVReadError .EOF : LogsError E) = .unchanged .EOF ∧
    ReadLine format assign (.error err) line =
      (line, .returned (some (handleCSVReadError err))) := by
  have hiff : isCSVParseError err = true ↔
      IsOrWraps err .ErrBareQuote ∨ IsOrWraps err .ErrFieldCount ∨ IsOrWraps err .ErrQuote := by
    unfold isCSVParseError
    rw [Bool.or_eq_true, Bool.or_eq_true, errorsIs_iff, errorsIs_iff, errorsIs_iff, or_assoc]
  refine ⟨?_, ?_, rfl, rfl⟩
  · rw [← hiff]
    unfold handleCSVReadError
    by_cases h : isCSVParseError err = true
    · simp [h]
    · simp [h]
  · rw [← hiff]
    intro h
    unfold handleCSVReadError
    rw [if_neg h]

/-- Witness of C15: a `*csv.ParseError` wrapping the bare-quote error becomes a
`*ParseError`; an error wrapping `io.EOF` is returned unchanged. -/
theorem C15_read_error_witness :
    (handleCSVReadError (.wrap 1 .ErrBareQuote) : LogsError Err) =
      .readFailed (.wrap 1 .ErrBareQuote) ∧
    (handleCSVReadError (.wrap 1 .EOF) : LogsError Err) = .unchanged (.wrap 1 .EOF) :=
  ⟨(C15_read_error (.wrap 1 .ErrBareQuote) wideFormat weblogAssign emptyLine).1.2
      (Or.inl (IsOrWraps.wrap _ _ _ (IsOrWraps.self _))),
   (C15_read_error (.wrap 1 .EOF) wideFormat weblogAssign emptyLine).2.1 (by
      rintro (h | h | h) <;> cases h <;> rename_i h <;> cases h)⟩

/-- C19, as the code has it: every column recorded by `newCSVFormat` is at most
`maxIndex`, for every field check; so for every record with more than `maxIndex`
columns every recorded column is below the length of the record, the access
`record[idx]` of `csvFormat.parse` is in bounds for every field whose recorded column
is not negative, and when no recorded column is negative the call does not panic. -/
theorem C19_columns_in_bounds
    (csvRead : Nat → Bool → GoString → Except GoError (List GoString))
    (config : CSVConfig) (f : csvFormat) (h : newCSVFormat csvRead config = .ok f) :
    (∀ e ∈ f.fieldIndexes, e.2 ≤ f.maxIndex) ∧
    ∀ (σ E : Type) (assign : σ → GoString → GoString → σ × Option E)
      (record : List GoString) (line : σ), f.maxIndex < (record.length : Int) →
      (∀ e ∈ f.fieldIndexes, e.2 < (record.length : Int)) ∧
      ((∀ e ∈ f.fieldIndexes, 0 ≤ e.2) →
        (f.parse assign record line).2 ≠ .indexOutOfRange) := by
  obtain ⟨fields, hr⟩ := newCSVFormat_read csvRead config f h
  obtain ⟨_, _, h3, _, _⟩ := newCSVFormat_ok csvRead config fields f hr h
  refine ⟨h3, ?_⟩
  intro σ E assign record line hlen
  have hup : ∀ e ∈ f.fieldIndexes, e.2 < (record.length : Int) := by
    intro e he
    have := h3 e he
    omega
  refine ⟨hup, ?_⟩
  intro hge
  unfold csvFormat.parse
  have : ¬ (record.length : Int) ≤ f.maxIndex := by omega
  rw [if_neg this]
  exact assignAll_in_bounds assign record f.fieldIndexes line fun e he => ⟨hge e he, hup e he⟩

/-- Witness of C19: the format `$a $z $b` with `zeroColumnCheck`, whose adjustment for
`$z` is -1, records the columns 0 and 1; on a record of two columns `parse` does not
panic. -/
theorem C19_columns_in_bounds_witness :
    newCSVFormat plainRead zeroColumnConfig = .ok zeroColumnFormat ∧
    (∀ e ∈ zeroColumnFormat.fieldIndexes, e.2 < (2 : Int)) ∧
    (zeroColumnFormat.parse weblogAssign [str "h", str "c"] emptyLine).2 ≠ .indexOutOfRange :=
  have h : newCSVFormat plainRead zeroColumnConfig = .ok zeroColumnFormat := by decide
  ⟨h,
   ((C19_columns_in_bounds plainRead zeroColumnConfig zeroColumnFormat h).2
      (LogLine decModel) Err weblogAssign [str "h", str "c"] emptyLine (by decide)).1,
   ((C19_columns_in_bounds plainRead zeroColumnConfig zeroColumnFormat h).2
      (LogLine decModel) Err weblogAssign [str "h", str "c"] emptyLine (by decide)).2
      (by decide)⟩

/-- Counterexample to C19 as stated: with a field check that returns the adjustment
-1, `newCSVFormat` accepts the format `$a` and records the column -1 with
`maxIndex` 0; on a record of one column, which is more than `maxIndex`,
`csvFormat.parse` reads `record[-1]` and panics. -/
theorem C19_counterexample :
    ∃ f, newCSVFormat plainRead shiftLeftConfig = .ok f ∧
      (str "$a", (-1 : Int)) ∈ f.fieldIndexes ∧ f.maxIndex < (([str "x"] : List GoString).length : Int) ∧
      (f.parse weblogAssign [str "x"] emptyLine).2 = .indexOutOfRange :=
  ⟨{ raw := str "$a", maxIndex := 0, fieldIndexes := [(str "$a", -1)] },
    by decide, by decide, by decide, by decide⟩

/-- C20, as the code has it: when `newCSVFormat` succeeds on a format tokenised as
`fields` (at most `2^63` tokens) with a field check whose adjustments are values of
`int`, the column recorded under the name of an accepted token number `i` is `i`
plus the sum of the offset adjustments that the field check returned for the tokens
0 to `i`, the rejected ones and token `i` itself included, in Go's 64-bit
arithmetic: it is the value of `int` congruent to that number modulo `2^64`, and so
that number itself whenever it is a value of `int`; no other column is recorded
under that name. -/
theorem C20_column_of_token
    (csvRead : Nat → Bool → GoString → Except GoError (List GoString))
    (config : CSVConfig) (fields : List GoString) (f : csvFormat)
    (hr : csvRead config.Delimiter config.TrimLeadingSpace config.Format = .ok fields)
    (h : newCSVFormat csvRead config = .ok f)
    (hc : ∀ t, IsInt64 (config.check t).2.1)
    (hlen : (fields.length : Int) ≤ (2 : Int) ^ 63)
    (i : Nat) (hi : i < fields.length) (hv : (checked config.check fields i).2.2 = true) :
    (∀ column, ((checked config.check fields i).1, column) ∈ f.fieldIndexes ↔
      column = wrapInt ((i : Int) + offsetThrough config.check fields i)) ∧
    (IsInt64 ((i : Int) + offsetThrough config.check fields i) →
      ∀ column, ((checked config.check fields i).1, column) ∈ f.fieldIndexes ↔
        column = (i : Int) + offsetThrough config.check fields i) := by
  obtain ⟨h1, _, _, _, h5⟩ := newCSVFormat_ok csvRead config fields f hr h
  have h0 : IsInt64 0 := by decide
  have hmem : ((checked config.check fields i).1,
      wrapInt ((i : Int) + offsetThrough config.check fields i)) ∈ f.fieldIndexes := by
    rw [h1, mem_acceptedFrom config.check fields 0 0 _ hc h0 (by simpa using hlen)]
    exact ⟨i, hi, hv, by simp⟩
  have main : ∀ column, ((checked config.check fields i).1, column) ∈ f.fieldIndexes ↔
      column = wrapInt ((i : Int) + offsetThrough config.check fields i) := by
    intro column
    constructor
    · intro hcol
      have := List.inj_on_of_nodup_map h5 hcol hmem rfl
      exact (Prod.mk.injEq _ _ _ _ ▸ this).2
    · rintro rfl
      exact hmem
  refine ⟨main, ?_⟩
  intro hin column
  rw [main, wrapInt_of_isInt64 _ hin]

/-- Witness of C20: in `$a $t $b` with `wideCheck`, token 2 (`$b`) comes after the
rejected token `$t` whose adjustment is 1, and is recorded in column 2 + 1. -/
theorem C20_column_of_token_witness :
    (str "$b", (3 : Int)) ∈ wideFormat.fieldIndexes ∧
    ¬ (str "$b", (2 : Int)) ∈ wideFormat.fieldIndexes :=
  have hc : ∀ t, IsInt64 (wideConfig.check t).2.1 := by
    intro t
    show IsInt64 (wideCheck t).2.1
    unfold wideCheck
    split
    · decide
    · rw [checkCSVFormatField_offset]
      decide
  ⟨((C20_column_of_token plainRead wideConfig [str "$a", str "$t", str "$b"] wideFormat
      (by decide) (by decide) hc (by decide) 2 (by decide) (by decide)).2 (by decide) 3).2
      (by decide),
   fun h => absurd
    (((C20_column_of_token plainRead wideConfig [str "$a", str "$t", str "$b"] wideFormat
      (by decide) (by decide) hc (by decide) 2 (by decide) (by decide)).2 (by decide) 2).1 h)
    (by decide)⟩

/-- Counterexample to C20 as stated: in `$t $b` with `hugeCheck` the adjustments are
`MaxInt64` for the rejected token 0 and 1 for token 1; token 1 plus their sum is
`2^63 + 1`, and the column recorded for `$b` is `-2^63 + 1`. -/
theorem C20_counterexample :
    newCSVFormat plainRead hugeConfig =
      .ok { raw := str "$t $b", maxIndex := 0,
            fieldIndexes := [(str "$b", -(2 : Int) ^ 63 + 1)] } ∧
    (checked hugeConfig.check [str "$t", str "$b"] 1).2.2 = true ∧
    (1 : Int) + offsetThrough hugeConfig.check [str "$t", str "$b"] 1 = (2 : Int) ^ 63 + 1 := by
  refine ⟨by decide, by decide, by decide⟩

end CSVClaims

/-! ## Claims on the metrics -/

section MetricsClaims

/-- C17: `metricsData.reset()` resets `UniqueIPv4`, `UniqueIPv6`, the summaries
`ReqProcTime` and `UpsRespTime` and the `ReqProcTime` of every URL pattern, and
leaves everything else as it was: the plain counters, the counter vectors, the two
histograms, `ReqCustomField`, and for every URL pattern its key, `RespCode`,
`BytesSent` and `BytesReceived`. -/
theorem C17_reset_frame {K : MetricsPkg} (m : metricsData K) :
    (m.reset.UniqueIPv4 = K.uniqueReset m.UniqueIPv4 ∧
      m.reset.UniqueIPv6 = K.uniqueReset m.UniqueIPv6 ∧
      m.reset.ReqProcTime = K.summaryReset m.ReqProcTime ∧
      m.reset.UpsRespTime = K.summaryReset m.UpsRespTime) ∧
    (m.reset.Requests = m.Requests ∧ m.reset.ReqUnmatched = m.ReqUnmatched ∧
      m.reset.Resp1xx = m.Resp1xx ∧ m.reset.Resp2xx = m.Resp2xx ∧
      m.reset.Resp3xx = m.Resp3xx ∧ m.reset.Resp4xx = m.Resp4xx ∧
      m.reset.Resp5xx = m.Resp5xx ∧ m.reset.ReqSuccess = m.ReqSuccess ∧
      m.reset.ReqRedirect = m.ReqRedirect ∧ m.reset.ReqBad = m.ReqBad ∧
      m.reset.ReqError = m.ReqError ∧ m.reset.BytesSent = m.BytesSent ∧
      m.reset.BytesReceived = m.BytesReceived ∧ m.reset.ReqHTTPScheme = m.ReqHTTPScheme ∧
      m.reset.ReqHTTPSScheme = m.ReqHTTPSScheme ∧ m.reset.ReqIPv4 = m.ReqIPv4 ∧
      m.reset.ReqIPv6 = m.ReqIPv6) ∧
    (m.reset.RespCode = m.RespCode ∧ m.reset.ReqVhost = m.ReqVhost ∧
      m.reset.ReqPort = m.ReqPort ∧ m.reset.ReqMethod = m.ReqMethod ∧
      m.reset.ReqURLPattern = m.ReqURLPattern ∧ m.reset.ReqVersion = m.ReqVersion ∧
      m.reset.ReqSSLProto = m.ReqSSLProto ∧
      m.reset.ReqSSLCipherSuite = m.ReqSSLCipherSuite) ∧
    (m.reset.ReqProcTimeHist = m.ReqProcTimeHist ∧
      m.reset.UpsRespTimeHist = m.UpsRespTimeHist) ∧
    m.reset.ReqCustomField = m.ReqCustomField ∧
    m.reset.URLPatternStats.map Prod.fst = m.URLPatternStats.map Prod.fst ∧
    List.Forall₂
      (fun before after =>
        after.1 = before.1 ∧ after.2.RespCode = before.2.RespCode ∧
        after.2.BytesSent = before.2.BytesSent ∧
        after.2.BytesReceived = before.2.BytesReceived ∧
        after.2.ReqProcTime = K.summaryReset before.2.ReqProcTime)
      m.URLPatternStats m.reset.URLPatternStats := by
  refine ⟨⟨rfl, rfl, rfl, rfl⟩,
    ⟨rfl, rfl, rfl, rfl, rfl, rfl, rfl, rfl, rfl, rfl, rfl, rfl, rfl, rfl, rfl, rfl, rfl⟩,
    ⟨rfl, rfl, rfl, rfl, rfl, rfl, rfl, rfl⟩, ⟨rfl, rfl⟩, rfl, ?_, ?_⟩
  · simp [metricsData.reset, List.map_map, Function.comp_def]
  · show List.Forall₂ _ m.URLPatternStats (m.URLPatternStats.map _)
    induction m.URLPatternStats with
    | nil => exact List.Forall₂.nil
    | cons e es ih => exact List.Forall₂.cons ⟨rfl, rfl, rfl, rfl, rfl⟩ ih

end MetricsClaims

/-! ## Claims on the matchers -/

section MatcherClaims

/-- The assertions of `TestAnd` and `TestOr` in `logical_test.go` hold of the
modelled constructors. -/
theorem logical_test_assertions :
    Matcher.And Matcher.FALSE (.stringFullMatcher (str "")) = Matcher.FALSE ∧
    Matcher.And Matcher.TRUE (.stringFullMatcher (str "")) = .stringFullMatcher (str "") ∧
    Matcher.And (.stringPartialMatcher (str "a")) (.stringPartialMatcher (str "b")) =
      .andMatcher (.stringPartialMatcher (str "a")) (.stringPartialMatcher (str "b")) ∧
    Matcher.Or Matcher.FALSE (.stringFullMatcher (str "")) = .stringFullMatcher (str "") ∧
    Matcher.Or Matcher.TRUE (.stringFullMatcher (str "")) = Matcher.TRUE ∧
    Matcher.Or (.stringPartialMatcher (str "a")) (.stringPartialMatcher (str "b")) =
      .orMatcher (.stringPartialMatcher (str "a")) (.stringPartialMatcher (str "b")) := by
  decide

/-- C18: for every matcher `m`, `And(FALSE, m)` is `FALSE`, `And(TRUE, m)` is `m`,
`Or(TRUE, m)` is `TRUE` and `Or(FALSE, m)` is `m`; for operands `a`, `b` neither of
which is `TRUE` or `FALSE`, `And(a, b)` is `andMatcher{a, b}` and `Or(a, b)` is
`orMatcher{a, b}`. -/
theorem C18_matcher_identities (m a b : Matcher) :
    Matcher.And Matcher.FALSE m = Matcher.FALSE ∧
    Matcher.And Matcher.TRUE m = m ∧
    Matcher.Or Matcher.TRUE m = Matcher.TRUE ∧
    Matcher.Or Matcher.FALSE m = m ∧
    (a.isIdentity = false → b.isIdentity = false →
      Matcher.And a b = .andMatcher a b ∧ Matcher.Or a b = .orMatcher a b) := by
  refine ⟨by cases m <;> rfl, by cases m <;> rfl, by cases m <;> rfl, by cases m <;> rfl, ?_⟩
  intro ha hb
  cases a <;> cases b <;> first
    | exact absurd ha (by decide)
    | exact absurd hb (by decide)
    | exact ⟨rfl, rfl⟩

/-- Witness of C18 at two partial-string matchers. -/
theorem C18_matcher_identities_witness :
    Matcher.And (.stringPartialMatcher (str "a")) (.stringPartialMatcher (str "b")) =
      .andMatcher (.stringPartialMatcher (str "a")) (.stringPartialMatcher (str "b")) ∧
    Matcher.Or (.stringPartialMatcher (str "a")) (.stringPartialMatcher (str "b")) =
      .orMatcher (.stringPartialMatcher (str "a")) (.stringPartialMatcher (str "b")) :=
  (C18_matcher_identities .trueMatcher (.stringPartialMatcher (str "a"))
    (.stringPartialMatcher (str "b"))).2.2.2.2 rfl rfl

end MatcherClaims

/-! ## Claims on the frame of `Assign` -/

namespace LogLine

variable {M : FloatModel}

theorem assignReqHTTPVersion_frame (l : LogLine M) (proto : GoString) :
    (l.assignReqHTTPVersion proto).1 =
      { l with ReqHTTPVersion := (l.assignReqHTTPVersion proto).1.ReqHTTPVersion } := by
  unfold assignReqHTTPVersion
  split <;> rfl

theorem assignRequest_frame (l : LogLine M) (request : GoString) :
    (l.assignRequest request).1 =
      { l with
        ReqHTTPMethod := (l.assignRequest request).1.ReqHTTPMethod
        ReqURI := (l.assignRequest request).1.ReqURI
        ReqHTTPVersion := (l.assignRequest request).1.ReqHTTPVersion } := by
  by_cases hh : request = hyphen
  · have : l.assignRequest request = (l, none) := by
      unfold assignRequest
      rw [if_pos hh]
    rw [this]
  · cases h1 : indexByte request 32 with
    | none =>
      have : l.assignRequest request = (l, some (.invalidRequest request)) := by
        unfold assignRequest
        rw [if_neg hh, h1]
      rw [this]
    | some idx =>
      cases h2 : indexByte (request.drop (idx + 1)) 32 with
      | none =>
        have : l.assignRequest request =
            ({ l with ReqHTTPMethod := request.take idx }, some (.invalidRequest request)) := by
          unfold assignRequest
          rw [if_neg hh, h1]
          simp only [h2]
        rw [this]
      | some idx2 =>
        have : l.assignRequest request =
            LogLine.assignReqHTTPVersion
              { l with
                ReqHTTPMethod := request.take idx
                ReqURI := (request.drop (idx + 1)).take idx2 }
              ((request.drop (idx + 1)).drop (idx2 + 1)) := by
          unfold assignRequest
          rw [if_neg hh, h1]
          simp only [h2]
        rw [this, assignReqHTTPVersion_frame]

theorem assignReqCodeStatus_frame (l : LogLine M) (status : GoString) :
    (l.assignReqCodeStatus status).1 =
      { l with RespCodeStatus := (l.assignReqCodeStatus status).1.RespCodeStatus } := by
  unfold assignReqCodeStatus
  split
  · rfl
  · split <;> rfl

theorem assignReqSize_frame (l : LogLine M) (size : GoString) :
    (l.assignReqSize size).1 = { l with ReqSize := (l.assignReqSize size).1.ReqSize } := by
  unfold assignReqSize
  split
  · rfl
  · split <;> rfl

theorem assignRespSize_frame (l : LogLine M) (size : GoString) :
    (l.assignRespSize size).1 = { l with RespSize := (l.assignRespSize size).1.RespSize } := by
  unfold assignRespSize
  split
  · rfl
  · split <;> rfl

theorem assignRespTime_frame (l : LogLine M) (time : GoString) :
    (l.assignRespTime time).1 = { l with RespTime := (l.assignRespTime time).1.RespTime } := by
  unfold assignRespTime
  split
  · rfl
  · split <;> rfl

theorem assignUpstreamRespTime_frame (l : LogLine M) (time : GoString) :
    (l.assignUpstreamRespTime time).1 =
      { l with UpstreamRespTime := (l.assignUpstreamRespTime time).1.UpstreamRespTime } := by
  unfold assignUpstreamRespTime
  split
  · rfl
  · simp only
    split <;> rfl

theorem assign_frame_cases (l : LogLine M) (f v : GoString) :
    (f = fieldVhost ∧ (l.Assign f v).1 = { l with Vhost := (l.Assign f v).1.Vhost }) ∨
    (f = fieldClientAddr ∧ (l.Assign f v).1 = { l with ClientAddr := (l.Assign f v).1.ClientAddr }) ∨
    (f = fieldRequest ∧ (l.Assign f v).1 = { l with ReqHTTPMethod := (l.Assign f v).1.ReqHTTPMethod, ReqURI := (l.Assign f v).1.ReqURI, ReqHTTPVersion := (l.Assign f v).1.ReqHTTPVersion }) ∨
    (f = fieldReqMethod ∧ (l.Assign f v).1 = { l with ReqHTTPMethod := (l.Assign f v).1.ReqHTTPMethod }) ∨
    (f = fieldReqURI ∧ (l.Assign f v).1 = { l with ReqURI := (l.Assign f v).1.ReqURI }) ∨
    (f = fieldReqProtocol ∧ (l.Assign f v).1 = { l with ReqHTTPVersion := (l.Assign f v).1.ReqHTTPVersion }) ∨
    (f = fieldRespStatus ∧ (l.Assign f v).1 = { l with RespCodeStatus := (l.Assign f v).1.RespCodeStatus }) ∨
    (f = fieldRespSize ∧ (l.Assign f v).1 = { l with RespSize := (l.Assign f v).1.RespSize }) ∨
    (f = fieldReqSize ∧ (l.Assign f v).1 = { l with ReqSize := (l.Assign f v).1.ReqSize }) ∨
    (f = fieldRespTime ∧ (l.Assign f v).1 = { l with RespTime := (l.Assign f v).1.RespTime }) ∨
    (f = fieldUpstreamRespTime ∧ (l.Assign f v).1 = { l with UpstreamRespTime := (l.Assign f v).1.UpstreamRespTime }) ∨
    (f = fieldCustom ∧ (l.Assign f v).1 = { l with Custom := (l.Assign f v).1.Custom }) ∨
    ((f ≠ fieldVhost ∧ f ≠ fieldClientAddr ∧ f ≠ fieldRequest ∧ f ≠ fieldReqMethod ∧ f ≠ fieldReqURI ∧ f ≠ fieldReqProtocol ∧ f ≠ fieldRespStatus ∧ f ≠ fieldRespSize ∧ f ≠ fieldReqSize ∧ f ≠ fieldRespTime ∧ f ≠ fieldUpstreamRespTime ∧ f ≠ fieldCustom) ∧ l.Assign f v = (l, none)) := by
  by_cases h0 : f = fieldVhost
  · subst h0
    refine Or.inl ⟨rfl, ?_⟩
    rw [assign_Vhost]
  by_cases h1 : f = fieldClientAddr
  · subst h1
    refine Or.inr (Or.inl ⟨rfl, ?_⟩)
    rw [assign_ClientAddr]
  by_cases h2 : f = fieldRequest
  · subst h2
    refine Or.inr (Or.inr (Or.inl ⟨rfl, ?_⟩))
    rw [assign_Request]
    exact assignRequest_frame l v
  by_cases h3 : f = fieldReqMethod
  · subst h3
    refine Or.inr (Or.inr (Or.inr (Or.inl ⟨rfl, ?_⟩)))
    rw [assign_ReqMethod]
  by_cases h4 : f = fieldReqURI
  · subst h4
    refine Or.inr (Or.inr (Or.inr (Or.inr (Or.inl ⟨rfl, ?_⟩))))
    rw [assign_ReqURI]
  by_cases h5 : f = fieldReqProtocol
  · subst h5
    refine Or.inr (Or.inr (Or.inr (Or.inr (Or.inr (Or.inl ⟨rfl, ?_⟩)))))
    rw [assign_ReqProtocol]
    exact assignReqHTTPVersion_frame l v
  by_cases h6 : f = fieldRespStatus
  · subst h6
    refine Or.inr (Or.inr (Or.inr (Or.inr (Or.inr (Or.inr (Or.inl ⟨rfl, ?_⟩))))))
    rw [assign_RespStatus]
    exact assignReqCodeStatus_frame l v
  by_cases h7 : f = fieldRespSize
  · subst h7
    refine Or.inr (Or.inr (Or.inr (Or.inr (Or.inr (Or.inr (Or.inr (Or.inl ⟨rfl, ?_⟩)))))))
    rw [assign_RespSize]
    exact assignRespSize_frame l v
  by_cases h8 : f = fieldReqSize
  · subst h8
    refine Or.inr (Or.inr (Or.inr (Or.inr (Or.inr (Or.inr (Or.inr (Or.inr (Or.inl ⟨rfl, ?_⟩))))))))
    rw [assign_ReqSize]
    exact assignReqSize_frame l v
  by_cases h9 : f = fieldRespTime
  · subst h9
    refine Or.inr (Or.inr (Or.inr (Or.inr (Or.inr (Or.inr (Or.inr (Or.inr (Or.inr (Or.inl ⟨rfl, ?_⟩)))))))))
    rw [assign_RespTime]
    exact assignRespTime_frame l v
  by_cases h10 : f = fieldUpstreamRespTime
  · subst h10
    refine Or.inr (Or.inr (Or.inr (Or.inr (Or.inr (Or.inr (Or.inr (Or.inr (Or.inr (Or.inr (Or.inl ⟨rfl, ?_⟩))))))))))
    rw [assign_UpstreamRespTime]
    exact assignUpstreamRespTime_frame l v
  by_cases h11 : f = fieldCustom
  · subst h11
    refine Or.inr (Or.inr (Or.inr (Or.inr (Or.inr (Or.inr (Or.inr (Or.inr (Or.inr (Or.inr (Or.inr (Or.inl ⟨rfl, ?_⟩)))))))))))
    rw [assign_Custom]
  refine Or.inr (Or.inr (Or.inr (Or.inr (Or.inr (Or.inr (Or.inr (Or.inr (Or.inr (Or.inr (Or.inr (Or.inr (⟨⟨h0, h1, h2, h3, h4, h5, h6, h7, h8, h9, h10, h11⟩, ?_⟩))))))))))))
  unfold Assign
  rw [if_neg h0, if_neg h1, if_neg h2, if_neg h3, if_neg h4, if_neg h5, if_neg h6, if_neg h7, if_neg h8, if_neg h9, if_neg h10, if_neg h11]

end LogLine

section FrameClaims

variable {M : FloatModel}

/-- C21: `Assign(f, v)` leaves unchanged every field of the record that `f` does
not own: `vhost`, `client_addr`, `req_method`, `req_uri`, `req_protocol`,
`resp_status`, `req_size`, `resp_size`, `resp_time`, `upstream_resp_time` and `custom`
own their single field, `request` owns the method, the URI and the HTTP version, and
`timeScale` is never changed.  For `vhost`, `client_addr`, `req_method`, `req_uri` and
`custom` it returns no error and stores `v` as it is; for a name outside the twelve
it returns no error and the record as it was. -/
theorem C21_assign_frame (l : LogLine M) (f v : GoString) :
    ((f ≠ fieldVhost → (l.Assign f v).1.Vhost = l.Vhost) ∧
    (f ≠ fieldClientAddr → (l.Assign f v).1.ClientAddr = l.ClientAddr) ∧
    (f ≠ fieldRequest → f ≠ fieldReqMethod → (l.Assign f v).1.ReqHTTPMethod = l.ReqHTTPMethod) ∧
    (f ≠ fieldRequest → f ≠ fieldReqURI → (l.Assign f v).1.ReqURI = l.ReqURI) ∧
    (f ≠ fieldRequest → f ≠ fieldReqProtocol → (l.Assign f v).1.ReqHTTPVersion = l.ReqHTTPVersion) ∧
    (f ≠ fieldRespStatus → (l.Assign f v).1.RespCodeStatus = l.RespCodeStatus) ∧
    (f ≠ fieldReqSize → (l.Assign f v).1.ReqSize = l.ReqSize) ∧
    (f ≠ fieldRespSize → (l.Assign f v).1.RespSize = l.RespSize) ∧
    (f ≠ fieldRespTime → (l.Assign f v).1.RespTime = l.RespTime) ∧
    (f ≠ fieldUpstreamRespTime → (l.Assign f v).1.UpstreamRespTime = l.UpstreamRespTime) ∧
    (f ≠ fieldCustom → (l.Assign f v).1.Custom = l.Custom) ∧
    ((l.Assign f v).1.timeScale = l.timeScale)) ∧
    (l.Assign fieldVhost v = ({ l with Vhost := v }, none) ∧
      l.Assign fieldClientAddr v = ({ l with ClientAddr := v }, none) ∧
      l.Assign fieldReqMethod v = ({ l with ReqHTTPMethod := v }, none) ∧
      l.Assign fieldReqURI v = ({ l with ReqURI := v }, none) ∧
      l.Assign fieldCustom v = ({ l with Custom := v }, none)) ∧
    (f ≠ fieldVhost → f ≠ fieldClientAddr → f ≠ fieldRequest → f ≠ fieldReqMethod → f ≠ fieldReqURI → f ≠ fieldReqProtocol → f ≠ fieldRespStatus → f ≠ fieldRespSize → f ≠ fieldReqSize → f ≠ fieldRespTime → f ≠ fieldUpstreamRespTime → f ≠ fieldCustom → l.Assign f v = (l, none)) := by
  refine ⟨⟨?_, ?_, ?_, ?_, ?_, ?_, ?_, ?_, ?_, ?_, ?_, ?_⟩,
    ⟨LogLine.assign_Vhost l v, LogLine.assign_ClientAddr l v, LogLine.assign_ReqMethod l v,
      LogLine.assign_ReqURI l v, LogLine.assign_Custom l v⟩, ?_⟩
  rotate_right
  · intro h0 h1 h2 h3 h4 h5 h6 h7 h8 h9 h10 h11
    unfold LogLine.Assign
    rw [if_neg h0, if_neg h1, if_neg h2, if_neg h3, if_neg h4, if_neg h5, if_neg h6,
      if_neg h7, if_neg h8, if_neg h9, if_neg h10, if_neg h11]
  all_goals
    intros
    rcases LogLine.assign_frame_cases l f v with
      ⟨hf, h⟩ | ⟨hf, h⟩ | ⟨hf, h⟩ | ⟨hf, h⟩ | ⟨hf, h⟩ | ⟨hf, h⟩ | ⟨hf, h⟩ | ⟨hf, h⟩ | ⟨hf, h⟩ | ⟨hf, h⟩ | ⟨hf, h⟩ | ⟨hf, h⟩ | ⟨_, h⟩
    all_goals first
      | contradiction
      | (rw [h])

/-- Witness of C21: `Assign("resp_status", "abc")` fails, and still leaves the
Vhost of `sampleLine` as it was; `Assign("port", "80")` changes nothing. -/
theorem C21_assign_frame_witness :
    (sampleLine.Assign fieldRespStatus (str "abc")).1.Vhost = sampleLine.Vhost ∧
    sampleLine.Assign (str "port") (str "80") = (sampleLine, none) :=
  ⟨(C21_assign_frame sampleLine fieldRespStatus (str "abc")).1.1 (by decide),
   (C21_assign_frame sampleLine (str "port") (str "80")).2.2 (by decide) (by decide)
    (by decide) (by decide) (by decide) (by decide) (by decide) (by decide) (by decide)
    (by decide) (by decide) (by decide)⟩

end FrameClaims

end Weblog
